import Mathlib

/-!
# Device-authorization login handshake (`pkg/login/client_login.go`)

A shallow embedding of `getLinks`, `openBrowser` and `Login`.

* Go `string` / `[]byte` values are Lean `String`s (valid Unicode text).
* Go `error` values are values of `GoError`; `nil` is `none`.
* Everything the package reaches outside itself (the HTTP client's `Do` behind
  `client.PostForm`, `execCommand(..).Start()`, `PollForKey`,
  `validators.APIKey`, `profile.ConfigureProfile`, `runtime.GOOS`) is a field
  of `Env`; each call is recorded in the `log` of the `World` it runs in.
* `client.PostForm` is embedded after `net/http`: the URL is parsed first
  (`neturl.Parse`), and only a request whose URL parses is handed to `Do`.
* `encoding/json` is embedded as a scanner automaton (`Scanner.step`, after
  the state functions of Go's `scanner.go`, with its nesting limit) followed by
  the struct decoder (`decodeLinks`, after `decode.go`).
-/

namespace StripeCLI

/-! ## Errors -/

/-- The two error types `encoding/json` returns from `Unmarshal` on a struct of
strings: `*json.SyntaxError` (message and offset not modelled) and
`*json.UnmarshalTypeError` (`Value`, `Type`, `Struct`, `Field`; offset not
modelled). -/
inductive JsonError
  | syntaxError
  | unmarshalTypeError (value type struct field : String)
  deriving DecidableEq

/-- A Go `error` value. `errorString` is what `fmt.Errorf` (without `%w`) and
`errors.New` build; `json` wraps the errors of `encoding/json`; `urlError` is a
`*url.Error` with its fields `Op`, `URL` and the message of `Err`; `foreign` is
any other error a collaborator may return, tagged with its type name. -/
inductive GoError
  | errorString (msg : String)
  | json (e : JsonError)
  | urlError (op url err : String)
  | foreign (type msg : String)
  deriving DecidableEq

/-- The message of a `*json.UnmarshalTypeError` (its method `Error()`). -/
def unmarshalTypeErrorMessage (value type struct field : String) : String :=
  if struct ≠ "" ∨ field ≠ "" then
    "json: cannot unmarshal " ++ value ++ " into Go struct field " ++ struct ++ "." ++ field
      ++ " of type " ++ type
  else
    "json: cannot unmarshal " ++ value ++ " into Go value of type " ++ type

/-! ## JSON values and the scanner of `encoding/json` -/

/-- A JSON document. Numbers keep their literal text. -/
inductive JSON
  | null
  | bool (b : Bool)
  | number (lit : String)
  | string (s : String)
  | array (elems : List JSON)
  | object (members : List (String × JSON))

/-- The name `encoding/json` gives the kind of a JSON value in an
`UnmarshalTypeError`. -/
def JSON.kind : JSON → String
  | .null => "null"
  | .bool _ => "bool"
  | .number _ => "number"
  | .string _ => "string"
  | .array _ => "array"
  | .object _ => "object"

/-- An open container on the scanner's parse stack, with what was read of it
so far (most recent first). In `obj`, `key` holds a member name whose value is
still to come. -/
inductive Frame
  | arr (done : List JSON)
  | obj (done : List (String × JSON)) (key : Option String)

/-- The scanner's step state, named after the state functions of `scanner.go`. -/
inductive Scan
  | beginValue
  | beginValueOrEmpty
  | beginStringOrEmpty
  | beginString
  | endValue
  | endTop
  | inString
  | inStringEsc
  | inStringEscU (seen : Nat)
  | neg
  | zero
  | one
  | dot
  | dot0
  | e
  | eSign
  | e0
  | literal (rest : List Char) (v : JSON)

/-- Scanner and value builder: the step state, the text of the token being
read (most recent character first), the open containers and the finished
top-level value. -/
structure Scanner where
  scan : Scan
  buf : List Char
  stack : List Frame
  result : Option JSON

def isSpace (c : Char) : Bool :=
  c = ' ' || c = '\t' || c = '\r' || c = '\n'

def isDigit (c : Char) : Bool :=
  '0'.toNat ≤ c.toNat && c.toNat ≤ '9'.toNat

def isHex (c : Char) : Bool :=
  isDigit c || ('a'.toNat ≤ c.toNat && c.toNat ≤ 'f'.toNat)
    || ('A'.toNat ≤ c.toNat && c.toNat ≤ 'F'.toNat)

def hexVal (c : Char) : Nat :=
  if isDigit c then c.toNat - '0'.toNat
  else if 'a'.toNat ≤ c.toNat && c.toNat ≤ 'f'.toNat then c.toNat - 'a'.toNat + 10
  else c.toNat - 'A'.toNat + 10

/-- The value of four hexadecimal digits (`getu4` in `decode.go`). -/
def getu4 (a b c d : Char) : Option Nat :=
  if isHex a && isHex b && isHex c && isHex d then
    some (((hexVal a * 16 + hexVal b) * 16 + hexVal c) * 16 + hexVal d)
  else none

/-- The Unicode replacement character U+FFFD. -/
def replacementChar : Char := Char.ofNat 0xFFFD

/-- A `\uXXXX` high surrogate waiting for its low half is replaced by U+FFFD
when something else follows. -/
def flushSurrogate (hi : Option Nat) (out : List Char) : List Char :=
  match hi with
  | some _ => replacementChar :: out
  | none => out

/-- Function `unquote` of `decode.go` on the text between the quotes of a
scanned string literal: escapes are replaced, a `\uXXXX` surrogate pair
becomes one character and a lone surrogate becomes U+FFFD. `hi` is a high
surrogate read just before; `none` on text that is no string body. -/
def unquoteAux : Option Nat → List Char → Option (List Char)
  | hi, [] => some (flushSurrogate hi [])
  | hi, c :: rest =>
    if c = '\\' then
      match rest with
      | [] => none
      | x :: rest1 =>
        if x = 'u' then
          match rest1 with
          | a :: b :: c2 :: d :: rest2 =>
            match getu4 a b c2 d with
            | none => none
            | some rr =>
              if hi.isSome ∧ 0xDC00 ≤ rr ∧ rr < 0xE000 then
                (unquoteAux none rest2).map
                  (Char.ofNat ((hi.getD 0 - 0xD800) * 0x400 + (rr - 0xDC00) + 0x10000) :: ·)
              else if 0xD800 ≤ rr ∧ rr < 0xDC00 then
                (unquoteAux (some rr) rest2).map (flushSurrogate hi)
              else if 0xDC00 ≤ rr ∧ rr < 0xE000 then
                (unquoteAux none rest2).map (fun t => flushSurrogate hi (replacementChar :: t))
              else
                (unquoteAux none rest2).map (fun t => flushSurrogate hi (Char.ofNat rr :: t))
          | _ => none
        else
          let plain (r : Char) : Option (List Char) :=
            (unquoteAux none rest1).map (fun t => flushSurrogate hi (r :: t))
          if x = '"' ∨ x = '\\' ∨ x = '/' then plain x
          else if x = 'b' then plain (Char.ofNat 8)
          else if x = 'f' then plain (Char.ofNat 12)
          else if x = 'n' then plain '\n'
          else if x = 'r' then plain '\r'
          else if x = 't' then plain '\t'
          else none
    else if c = '"' ∨ c.toNat < 0x20 then none
    else (unquoteAux none rest).map (fun t => flushSurrogate hi (c :: t))

/-- Function `unquote` of `decode.go`. -/
def unquote (cs : List Char) : Option (List Char) :=
  unquoteAux none cs

/-- A finished value goes to the innermost open container, or becomes the
top-level value; the scanner then expects what may follow a value. -/
def Scanner.emit (s : Scanner) (v : JSON) : Option Scanner :=
  match s.stack with
  | [] => some { scan := .endTop, buf := [], stack := [], result := some v }
  | .arr done :: rest =>
    some { s with scan := .endValue, buf := [], stack := .arr (v :: done) :: rest }
  | .obj done (some k) :: rest =>
    some { s with scan := .endValue, buf := [], stack := .obj ((k, v) :: done) none :: rest }
  | .obj _ none :: _ => none

/-- A string literal was closed: it is a member name when the innermost
container is an object waiting for one, and a value otherwise. -/
def Scanner.endString (s : Scanner) : Option Scanner :=
  match unquote s.buf.reverse with
  | none => none
  | some cs =>
    match s.stack with
    | .obj done none :: rest =>
      some { s with scan := .endValue, buf := [], stack := .obj done (some (String.mk cs)) :: rest }
    | _ => s.emit (.string (String.mk cs))

/-- State function `stateEndValue` (and `stateEndTop`): the character after a
complete value. -/
def Scanner.stepEndValue (s : Scanner) (c : Char) : Option Scanner :=
  match s.stack with
  | [] => if isSpace c then some { s with scan := .endTop } else none
  | .obj done (some k) :: rest =>
    if isSpace c then some { s with scan := .endValue }
    else if c = ':' then some { s with scan := .beginValue, stack := .obj done (some k) :: rest }
    else none
  | .obj done none :: rest =>
    if isSpace c then some { s with scan := .endValue }
    else if c = ',' then some { s with scan := .beginString }
    else if c = '}' then Scanner.emit { s with stack := rest } (.object done.reverse)
    else none
  | .arr done :: rest =>
    if isSpace c then some { s with scan := .endValue }
    else if c = ',' then some { s with scan := .beginValue }
    else if c = ']' then Scanner.emit { s with stack := rest } (.array done.reverse)
    else none

/-- Constant `maxNestingDepth` of `scanner.go`. -/
def maxNestingDepth : Nat := 10000

/-- Method `pushParseState`: a container is opened; with more than
`maxNestingDepth` containers open it is the syntax error "exceeded max depth". -/
def Scanner.pushParseState (s : Scanner) (f : Frame) (successState : Scan) : Option Scanner :=
  if s.stack.length + 1 ≤ maxNestingDepth then
    some { s with scan := successState, stack := f :: s.stack }
  else none

/-- State function `stateBeginValue`. -/
def Scanner.stepBeginValue (s : Scanner) (c : Char) : Option Scanner :=
  if isSpace c then some s
  else if c = '{' then s.pushParseState (.obj [] none) .beginStringOrEmpty
  else if c = '[' then s.pushParseState (.arr []) .beginValueOrEmpty
  else if c = '"' then some { s with scan := .inString, buf := [] }
  else if c = '-' then some { s with scan := .neg, buf := [c] }
  else if c = '0' then some { s with scan := .zero, buf := [c] }
  else if c = 't' then some { s with scan := .literal ['r', 'u', 'e'] (.bool true) }
  else if c = 'f' then some { s with scan := .literal ['a', 'l', 's', 'e'] (.bool false) }
  else if c = 'n' then some { s with scan := .literal ['u', 'l', 'l'] .null }
  else if isDigit c then some { s with scan := .one, buf := [c] }
  else none

/-- The number token is complete: it is emitted and `c` is what follows it. -/
def Scanner.endNumber (s : Scanner) (c : Char) : Option Scanner :=
  match s.emit (.number (String.mk s.buf.reverse)) with
  | none => none
  | some s1 => s1.stepEndValue c

/-- One step of the scanner on character `c`; `none` is a syntax error. -/
def Scanner.step (s : Scanner) (c : Char) : Option Scanner :=
  match s.scan with
  | .beginValue => s.stepBeginValue c
  | .beginValueOrEmpty =>
    if isSpace c then some s
    else if c = ']' then s.stepEndValue c
    else s.stepBeginValue c
  | .beginStringOrEmpty =>
    if isSpace c then some s
    else if c = '}' then s.stepEndValue c
    else if c = '"' then some { s with scan := .inString, buf := [] }
    else none
  | .beginString =>
    if isSpace c then some s
    else if c = '"' then some { s with scan := .inString, buf := [] }
    else none
  | .endValue => s.stepEndValue c
  | .endTop => if isSpace c then some s else none
  | .inString =>
    if c = '"' then s.endString
    else if c = '\\' then some { s with scan := .inStringEsc, buf := c :: s.buf }
    else if c.toNat < 0x20 then none
    else some { s with buf := c :: s.buf }
  | .inStringEsc =>
    if c = 'b' ∨ c = 'f' ∨ c = 'n' ∨ c = 'r' ∨ c = 't' ∨ c = '\\' ∨ c = '/' ∨ c = '"' then
      some { s with scan := .inString, buf := c :: s.buf }
    else if c = 'u' then some { s with scan := .inStringEscU 0, buf := c :: s.buf }
    else none
  | .inStringEscU seen =>
    if isHex c then
      some { s with scan := if seen = 3 then .inString else .inStringEscU (seen + 1),
                    buf := c :: s.buf }
    else none
  | .neg =>
    if c = '0' then some { s with scan := .zero, buf := c :: s.buf }
    else if isDigit c then some { s with scan := .one, buf := c :: s.buf }
    else none
  | .one =>
    if isDigit c then some { s with buf := c :: s.buf }
    else if c = '.' then some { s with scan := .dot, buf := c :: s.buf }
    else if c = 'e' ∨ c = 'E' then some { s with scan := .e, buf := c :: s.buf }
    else s.endNumber c
  | .zero =>
    if c = '.' then some { s with scan := .dot, buf := c :: s.buf }
    else if c = 'e' ∨ c = 'E' then some { s with scan := .e, buf := c :: s.buf }
    else s.endNumber c
  | .dot =>
    if isDigit c then some { s with scan := .dot0, buf := c :: s.buf } else none
  | .dot0 =>
    if isDigit c then some { s with buf := c :: s.buf }
    else if c = 'e' ∨ c = 'E' then some { s with scan := .e, buf := c :: s.buf }
    else s.endNumber c
  | .e =>
    if c = '+' ∨ c = '-' then some { s with scan := .eSign, buf := c :: s.buf }
    else if isDigit c then some { s with scan := .e0, buf := c :: s.buf }
    else none
  | .eSign =>
    if isDigit c then some { s with scan := .e0, buf := c :: s.buf } else none
  | .e0 =>
    if isDigit c then some { s with buf := c :: s.buf } else s.endNumber c
  | .literal rest v =>
    match rest with
    | [] => none
    | [x] => if c = x then s.emit v else none
    | x :: more => if c = x then some { s with scan := .literal more v } else none

/-- The scanner before the first character. -/
def Scanner.init : Scanner :=
  { scan := .beginValue, buf := [], stack := [], result := none }

/-- Runs the scanner over the whole text. -/
def Scanner.run : Scanner → List Char → Option Scanner
  | s, [] => some s
  | s, c :: cs =>
    match s.step c with
    | none => none
    | some s1 => s1.run cs

/-- End of input (`scanner.eof`): a space is fed to close a number, then the
scanner must have finished a top-level value. -/
def Scanner.eof (s : Scanner) : Option JSON :=
  match s.scan with
  | .endTop => s.result
  | _ =>
    match s.step ' ' with
    | some s1 =>
      match s1.scan with
      | .endTop => s1.result
      | _ => none
    | none => none

/-- The JSON value the text denotes, or a syntax error. -/
def parseJSON (data : String) : Except JsonError JSON :=
  match Scanner.init.run data.data with
  | none => .error .syntaxError
  | some s =>
    match s.eof with
    | none => .error .syntaxError
    | some v => .ok v

/-! ## Decoding into `Links` -/

/-- Struct `Links`: the URLs for the CLI to continue the login flow. -/
structure Links where
  BrowserURL : String
  PollURL : String
  VerificationCode : String
  deriving DecidableEq

/-- The fields of `Links`. -/
inductive Field
  | BrowserURL
  | PollURL
  | VerificationCode
  deriving DecidableEq

/-- The `json:"..."` tag of each field. -/
def Field.name : Field → String
  | .BrowserURL => "browser_url"
  | .PollURL => "poll_url"
  | .VerificationCode => "verification_code"

/-- The fields in declaration order. -/
def linksFields : List Field := [.BrowserURL, .PollURL, .VerificationCode]

/-- Case folding of `encoding/json` for member names: ASCII letters fold to
upper case, U+017F (long s) folds with `s` and U+212A (Kelvin sign) with `k`. -/
def foldRune (c : Char) : Char :=
  if 'a'.toNat ≤ c.toNat ∧ c.toNat ≤ 'z'.toNat then Char.ofNat (c.toNat - 32)
  else if c.toNat = 0x17F then 'S'
  else if c.toNat = 0x212A then 'K'
  else c

/-- Whether a member name equals a field name under case folding. -/
def equalFold (name key : String) : Bool :=
  name.data.map foldRune = key.data.map foldRune

/-- The field a member name addresses: the field with exactly that name, or
else the first field equal to it under case folding; `none` for a name that
addresses no field (the member is skipped). -/
def findField (key : String) : Option Field :=
  match linksFields.find? (fun f => f.name = key) with
  | some f => some f
  | none => linksFields.find? (fun f => equalFold f.name key)

/-- Stores a string in a field. -/
def Links.set (l : Links) : Field → String → Links
  | .BrowserURL, s => { l with BrowserURL := s }
  | .PollURL, s => { l with PollURL := s }
  | .VerificationCode, s => { l with VerificationCode := s }

/-- Reads a field. -/
def Links.get (l : Links) : Field → String
  | .BrowserURL => l.BrowserURL
  | .PollURL => l.PollURL
  | .VerificationCode => l.VerificationCode

/-- Method `saveError` of the decoder: the first error is kept. -/
def saveError (saved : Option JsonError) (e : JsonError) : Option JsonError :=
  match saved with
  | none => some e
  | some _ => saved

/-- One member of the object: a string is stored in the field its name
addresses, `null` leaves the field alone, any other value is a type error that
is saved while decoding goes on. -/
def decodeMember (st : Links × Option JsonError) (m : String × JSON) :
    Links × Option JsonError :=
  match findField m.1 with
  | none => st
  | some f =>
    match m.2 with
    | .string s => (st.1.set f s, st.2)
    | .null => st
    | v => (st.1, saveError st.2 (.unmarshalTypeError v.kind "string" "Links" f.name))

/-- The decoder on a struct of type `Links`: an object is decoded member by
member in document order, `null` changes nothing, any other value is a type
error. Returns the struct as left by the decoder and the saved error. -/
def decodeLinks (v : JSON) (into : Links) : Links × Option JsonError :=
  match v with
  | .object members => members.foldl decodeMember (into, none)
  | .null => (into, none)
  | v => (into, some (.unmarshalTypeError v.kind "login.Links" "" ""))

/-- Function `json.Unmarshal(data, &links)`: the text is checked as a whole
first (a syntax error leaves the struct untouched), then decoded. -/
def json.Unmarshal (data : String) (v : Links) : Links × Option JsonError :=
  match parseJSON data with
  | .error e => (v, some e)
  | .ok j => decodeLinks j v

/-! ## The world outside the package -/

/-- Type `url.Values`: a form, each key with its list of values. -/
abbrev Values := List (String × List String)

/-- Method `Values.Set`: the key gets the single value, replacing what it had. -/
def Values.Set (v : Values) (key value : String) : Values :=
  (key, [value]) :: v.filter (fun kv => kv.1 ≠ key)

/-- An HTTP request as the client hands it to the transport. -/
structure Request where
  Method : String
  URL : String
  ContentType : String
  Form : Values
  deriving DecidableEq

/-- An HTTP response: the status code and the outcome of
`ioutil.ReadAll(res.Body)`. -/
structure Response where
  StatusCode : Int
  Body : Except GoError String

/-- Modelled from the spec: `profile.Profile` is declared outside the given
sources. The device/profile context of the spec carries the caller-supplied
device name, which `Login` reads; the other fields are those the package's
test sets. -/
structure Profile where
  Color : String
  ConfigFile : String
  LogLevel : String
  ProfileName : String
  DeviceName : String
  deriving DecidableEq

/-- What the package does to the world outside, in order: `postForm` is a
call of `client.PostForm`, `request` a request handed to the client's `Do`. -/
inductive Event
  | postForm (url : String) (data : Values)
  | request (req : Request)
  | bodyClose
  | printf (text : String)
  | start (name : String) (args : List String)
  | pollForKey (pollURL : String) (interval maxAttempts : Int)
  | apiKey (key : String)
  | configureProfile (profile : Profile) (key : String)
  deriving DecidableEq

/-- The collaborators, over a state `σ` of the outside world they may read and
change: the operating system name `runtime.GOOS`; the checks `url.Parse` makes
after the scheme (authority, host, port, escapes), `none` when it accepts;
method `Do` of the HTTP client made by `stripeauth.NewHTTPClient`, which
sends the request and returns the final response, following redirects itself
(the answer may come from a later request of the client than the one handed
over); `execCommand(name, args...).Start()`, `PollForKey`,
`validators.APIKey` and `profile.ConfigureProfile`. -/
structure Env (σ : Type) where
  GOOS : String
  urlParseRest : String → Option GoError
  Do : Request → σ → Except GoError Response × σ
  execCommandStart : String → List String → σ → Option GoError × σ
  PollForKey : String → Int → Int → σ → Except GoError String × σ
  APIKey : String → σ → Option GoError × σ
  ConfigureProfile : Profile → String → σ → Option GoError × σ

/-- The outside world and the log of what was done to it. -/
structure World (σ : Type) where
  ext : σ
  log : List Event

/-- Appends an event to the log and moves the outside world on. -/
def World.next {σ : Type} (w : World σ) (e : Event) (ext : σ) : World σ :=
  { ext := ext, log := w.log ++ [e] }

/-- Function `fmt.Errorf` on a format without `%w`: an error with the
formatted message. -/
def fmt.Errorf (msg : String) : GoError := .errorString msg

/-- Function `stringContainsCTLByte` of `net/url`. -/
def stringContainsCTLByte (s : List Char) : Bool :=
  s.any (fun c => decide (c.toNat < 0x20) || decide (c.toNat = 0x7f))

/-- Function `getScheme` of `net/url`, at index `i` of `rawURL` with `rest`
still to read: the scheme and what follows it, or the error. -/
def getSchemeFrom (rawURL : List Char) :
    Nat → List Char → Except String (List Char × List Char)
  | _, [] => .ok ([], rawURL)
  | i, c :: rest =>
    if ('a'.toNat ≤ c.toNat ∧ c.toNat ≤ 'z'.toNat)
        ∨ ('A'.toNat ≤ c.toNat ∧ c.toNat ≤ 'Z'.toNat) then
      getSchemeFrom rawURL (i + 1) rest
    else if ('0'.toNat ≤ c.toNat ∧ c.toNat ≤ '9'.toNat) ∨ c = '+' ∨ c = '-'
        ∨ c = '.' then
      if i = 0 then .ok ([], rawURL) else getSchemeFrom rawURL (i + 1) rest
    else if c = ':' then
      if i = 0 then .error "missing protocol scheme" else .ok (rawURL.take i, rest)
    else .ok ([], rawURL)

/-- Function `getScheme` of `net/url`. -/
def getScheme (rawURL : List Char) : Except String (List Char × List Char) :=
  getSchemeFrom rawURL 0 rawURL

/-- The error of `url.Parse(rawURL)`, `none` when the URL parses: the fragment
is cut off, a control character or a missing scheme before the colon is an
error, and the remaining checks are the environment's. -/
def neturl.Parse {σ : Type} (env : Env σ) (rawURL : String) : Option GoError :=
  let u := rawURL.data.takeWhile (fun c => c ≠ '#')
  if stringContainsCTLByte u then
    some (.urlError "parse" (String.mk u) "net/url: invalid control character in URL")
  else
    match getScheme u with
    | .error msg => some (.urlError "parse" (String.mk u) msg)
    | .ok _ => env.urlParseRest rawURL

/-- Method `Client.PostForm(url, data)` of `net/http`, which is
`Client.Post(url, "application/x-www-form-urlencoded", data.Encode())`:
`NewRequest` parses the URL and returns the parse error without a request;
otherwise the POST of the form is handed to `Do`. -/
def Client.PostForm {σ : Type} (env : Env σ) (w : World σ) (url : String) (data : Values) :
    Except GoError Response × World σ :=
  let w0 := w.next (.postForm url data) w.ext
  match neturl.Parse env url with
  | some err => (.error err, w0)
  | none =>
    let req : Request :=
      { Method := "POST", URL := url, ContentType := "application/x-www-form-urlencoded",
        Form := data }
    let r := env.Do req w0.ext
    (r.1, w0.next (.request req) r.2)

/-! ## `client_login.go` -/

def stripeCLIAuthURL : String := "https://dashboard.stripe.com/stripecli/auth"

/-- Function `getLinks`: the pair `(*Links, error)` it returns and the world
it leaves. -/
def getLinks {σ : Type} (env : Env σ) (w : World σ) (authURL deviceName : String) :
    (Option Links × Option GoError) × World σ :=
  let authURL := if authURL = "" then stripeCLIAuthURL else authURL
  let data := Values.Set [] "device_name" deviceName
  let r := Client.PostForm env w authURL data
  match r.1 with
  | .error err => ((none, some err), r.2)
  | .ok res =>
    let w1 := r.2.next .bodyClose r.2.ext
    match res.Body with
    | .error err => ((none, some err), w1)
    | .ok bodyBytes =>
      if res.StatusCode ≠ 200 then
        ((none, some (fmt.Errorf ("unexpected http status code: " ++ toString res.StatusCode
          ++ " " ++ bodyBytes))), w1)
      else
        let u := json.Unmarshal bodyBytes
          { BrowserURL := "", PollURL := "", VerificationCode := "" }
        match u.2 with
        | some err => ((none, some (.json err)), w1)
        | none => ((some u.1, none), w1)

/-- Function `openBrowser`. -/
def openBrowser {σ : Type} (env : Env σ) (w : World σ) (url : String) :
    Option GoError × World σ :=
  let run (name : String) (args : List String) : Option GoError × World σ :=
    let r := env.execCommandStart name args w.ext
    (r.1, w.next (.start name args) r.2)
  let r :=
    if env.GOOS = "linux" then run "xdg-open" [url]
    else if env.GOOS = "windows" then run "rundll32" ["url.dll,FileProtocolHandler", url]
    else if env.GOOS = "darwin" then run "open" [url]
    else (some (fmt.Errorf "unsupported platform"), w)
  match r.1 with
  | some err => (some err, r.2)
  | none => (none, r.2)

/-- How a call of `Login` ends: it returns an error value (`none` is `nil`),
or it dereferences a nil `*Links`. -/
inductive Outcome
  | returned (err : Option GoError)
  | nilDereference
  deriving DecidableEq

/-- The text `Login` prints: the format
`"Opening login link %s in your browser.\nVerification code is %s\n"` applied to
the browser URL and the verification code. -/
def loginPrompt (links : Links) : String :=
  "Opening login link " ++ links.BrowserURL ++ " in your browser.\nVerification code is "
    ++ links.VerificationCode ++ "\n"

/-- Function `Login`. -/
def Login {σ : Type} (env : Env σ) (w : World σ) (url : String) (profile : Profile) :
    Outcome × World σ :=
  let r := getLinks env w url profile.DeviceName
  match r.1 with
  | (_, some err) => (.returned (some err), r.2)
  | (none, none) => (.nilDereference, r.2)
  | (some links, none) =>
    let w1 := r.2.next (.printf (loginPrompt links)) r.2.ext
    let b := openBrowser env w1 links.BrowserURL
    match b.1 with
    | some urlErr => (.returned (some urlErr), b.2)
    | none =>
      let p := env.PollForKey links.PollURL 0 0 b.2.ext
      let w3 := b.2.next (.pollForKey links.PollURL 0 0) p.2
      match p.1 with
      | .error err => (.returned (some err), w3)
      | .ok apiKey =>
        let v := env.APIKey apiKey w3.ext
        let w4 := w3.next (.apiKey apiKey) v.2
        match v.1 with
        | some validateErr => (.returned (some validateErr), w4)
        | none =>
          let c := env.ConfigureProfile profile apiKey w4.ext
          let w5 := w4.next (.configureProfile profile apiKey) c.2
          match c.1 with
          | some configErr => (.returned (some configErr), w5)
          | none => (.returned none, w5)

/-! ## Vocabulary of the statements -/

/-- The URL `getLinks` posts to: the authorization URL, or the default when
that is empty. -/
def linksTarget (authURL : String) : String :=
  if authURL = "" then "https://dashboard.stripe.com/stripecli/auth" else authURL

/-- The form `getLinks` posts: the one field `device_name`. -/
def linksForm (deviceName : String) : Values := [("device_name", [deviceName])]

/-- The request `getLinks` is to send for an authorization URL and a device
name. -/
def linksRequest (authURL deviceName : String) : Request :=
  { Method := "POST"
    URL := linksTarget authURL
    ContentType := "application/x-www-form-urlencoded"
    Form := linksForm deviceName }

/-- Lower-case hexadecimal digit of a number below 16. -/
def hexDigit (n : Nat) : Char :=
  if n < 10 then Char.ofNat (48 + n) else Char.ofNat (87 + n)

/-- A character as written inside a JSON string literal: the quote and the
backslash behind a backslash, a control character as `\u00XX`, any other
character as it is. -/
def escapeJSON (c : Char) : List Char :=
  if c = '"' then ['\\', '"']
  else if c = '\\' then ['\\', '\\']
  else if c.toNat < 0x20 then
    ['\\', 'u', '0', '0', hexDigit (c.toNat / 16), hexDigit (c.toNat % 16)]
  else [c]

/-- The text of a string inside a JSON string literal. -/
def escapeAll : List Char → List Char
  | [] => []
  | c :: cs => escapeJSON c ++ escapeAll cs

/-- The JSON text of the object with the three string members `browser_url`,
`poll_url` and `verification_code`, in this order, followed by a newline (the
shape `json.NewEncoder(w).Encode(links)` writes). -/
def linksObjectText (b p v : String) : String :=
  String.mk ("\x7b\"browser_url\":\"".data ++ (escapeAll b.data
    ++ ("\",\"poll_url\":\"".data ++ (escapeAll p.data
    ++ ("\",\"verification_code\":\"".data ++ (escapeAll v.data ++ "\"\x7d\n".data))))))

/-- A body with the three string fields and a further member whose name
differs from `browser_url` only in case. -/
def overridingBody : String :=
  "\x7b\"browser_url\":\"B\",\"poll_url\":\"P\",\"verification_code\":\"C\","
    ++ "\"BROWSER_URL\":\"evil\"\x7d"

/-- A body with the three string fields and a further member `Poll_URL` that
is a number. -/
def mistypedBody : String :=
  "\x7b\"browser_url\":\"B\",\"poll_url\":\"P\",\"verification_code\":\"C\","
    ++ "\"Poll_URL\":5\x7d"

/-- A body whose strings use JSON escapes: `\u0026` for the ampersand (as Go's
encoder writes it), `\/`, `\n` and a surrogate pair. -/
def escapedLinksBody : String :=
  "\x7b \"poll_url\" : \"https:\\/\\/stripe.com\\/poll\", "
    ++ "\"verification_code\":\"a\\nb\\ud83d\\ude00\","
    ++ "\"browser_url\":\"https://stripe.com/browser?a=1\\u0026b=2\" \x7d"

/-- The zero value of `Links` that `getLinks` decodes into. -/
def zeroLinks : Links := { BrowserURL := "", PollURL := "", VerificationCode := "" }

/-- The string a member of the body's object supplies for field `f`: its
value when its name addresses `f` and the value is a string. -/
def supplies (f : Field) (m : String × JSON) : Option String :=
  if findField m.1 = some f then
    match m.2 with
    | .string s => some s
    | _ => none
  else none

/-- The string a JSON document supplies for field `f`: the last one among its
members when it is an object and has one, the empty string otherwise. -/
def JSON.supplied (j : JSON) (f : Field) : String :=
  match j with
  | .object members => ((members.filterMap (supplies f)).getLast?).getD ""
  | _ => ""

/-- The five steps of `Login`. -/
inductive Step
  | links
  | browser
  | poll
  | validate
  | persist
  deriving DecidableEq

/-- The step an event belongs to: the call of `client.PostForm` is the call
for links, a started command is the browser launch; handing the request to the
client, closing the body and printing are no steps of their own. -/
def Event.step : Event → Option Step
  | .postForm _ _ => some .links
  | .request _ => none
  | .start _ _ => some .browser
  | .pollForKey _ _ _ => some .poll
  | .apiKey _ => some .validate
  | .configureProfile _ _ => some .persist
  | .bodyClose => none
  | .printf _ => none

/-- The steps taken between the world `w` and the later world `w2`, in order. -/
def stepsSince {σ : Type} (w w2 : World σ) : List Step :=
  (w2.log.drop w.log.length).filterMap Event.step

/-- A transport that answers every request with the given status code and
body; the other collaborators succeed, polling yields `key`. -/
def fixedServer (goos : String) (code : Int) (body key : String) : Env Unit :=
  { GOOS := goos
    urlParseRest := fun _ => none
    Do := fun _ _ => (.ok { StatusCode := code, Body := .ok body }, ())
    execCommandStart := fun _ _ _ => (none, ())
    PollForKey := fun _ _ _ _ => (.ok key, ())
    APIKey := fun _ _ => (none, ())
    ConfigureProfile := fun _ _ _ => (none, ()) }

/-- A transport whose every request fails with the given error. -/
def deadServer (e : GoError) : Env Unit :=
  { GOOS := "linux"
    urlParseRest := fun _ => none
    Do := fun _ _ => (.error e, ())
    execCommandStart := fun _ _ _ => (none, ())
    PollForKey := fun _ _ _ _ => (.ok "", ())
    APIKey := fun _ _ => (none, ())
    ConfigureProfile := fun _ _ _ => (none, ()) }

/-- A server as `fixedServer`, with a key validator that rejects every key
with the given error. -/
def rejectingValidator (code : Int) (body key : String) (e : GoError) : Env Unit :=
  { GOOS := "linux"
    urlParseRest := fun _ => none
    Do := fun _ _ => (.ok { StatusCode := code, Body := .ok body }, ())
    execCommandStart := fun _ _ _ => (none, ())
    PollForKey := fun _ _ _ _ => (.ok key, ())
    APIKey := fun _ _ => (some e, ())
    ConfigureProfile := fun _ _ _ => (none, ()) }

/-- The profile of `TestLogin`. -/
def testProfile : Profile :=
  { Color := "auto"
    ConfigFile := "/tmp/stripe/config.toml"
    LogLevel := "info"
    ProfileName := "tests"
    DeviceName := "st-testing" }

/-- The links of `TestLogin`, for a test server listening on 127.0.0.1:8080. -/
def testLoginLinks : Links :=
  { BrowserURL := "http://127.0.0.1:8080/browser"
    PollURL := "http://127.0.0.1:8080/poll"
    VerificationCode := "dinosaur-pineapple-polkadot" }

/-- The body the test server of `TestLogin` sends for the links. -/
def testLoginBody : String :=
  "\x7b\"browser_url\":\"http://127.0.0.1:8080/browser\",\"poll_url\":\"http://127.0.0.1:8080/poll\","
    ++ "\"verification_code\":\"dinosaur-pineapple-polkadot\"\x7d\n"

/-- The body the package's test server sends in `TestGetLinks`. -/
def testLinksBody : String :=
  "\x7b\"browser_url\":\"https://stripe.com/browser\",\"poll_url\":\"https://stripe.com/poll\","
    ++ "\"verification_code\":\"dinosaur-pineapple-polkadot\"\x7d\n"

/-- The world before anything was done. -/
def freshWorld : World Unit := { ext := (), log := [] }

/-! ## `getLinks` -/

theorem World.next_ext {σ : Type} (w : World σ) (e : Event) (x : σ) : (w.next e x).ext = x :=
  rfl

theorem World.next_log {σ : Type} (w : World σ) (e : Event) (x : σ) :
    (w.next e x).log = w.log ++ [e] :=
  rfl

/-- The call `getLinks` makes is `client.PostForm(linksTarget, linksForm)`. -/
theorem getLinks_eq {σ : Type} (env : Env σ) (w : World σ) (authURL deviceName : String) :
    getLinks env w authURL deviceName
      = (match (Client.PostForm env w (linksTarget authURL) (linksForm deviceName)).1 with
          | .error err =>
            ((none, some err),
              (Client.PostForm env w (linksTarget authURL) (linksForm deviceName)).2)
          | .ok res =>
            ((match res.Body with
              | .error err => (none, some err)
              | .ok bodyBytes =>
                if res.StatusCode ≠ 200 then
                  (none, some (.errorString ("unexpected http status code: "
                    ++ toString res.StatusCode ++ " " ++ bodyBytes)))
                else
                  match (json.Unmarshal bodyBytes zeroLinks).2 with
                  | some err => (none, some (.json err))
                  | none => (some (json.Unmarshal bodyBytes zeroLinks).1, none)),
             (Client.PostForm env w (linksTarget authURL) (linksForm deviceName)).2.next
               .bodyClose
               (Client.PostForm env w (linksTarget authURL) (linksForm deviceName)).2.ext)) := by
  have ht : (if authURL = "" then stripeCLIAuthURL else authURL) = linksTarget authURL := rfl
  have hf : Values.Set [] "device_name" deviceName = linksForm deviceName := rfl
  unfold getLinks
  simp only [ht, hf]
  cases hr : (Client.PostForm env w (linksTarget authURL) (linksForm deviceName)).1 with
  | error err => rfl
  | ok res =>
    simp only []
    cases hb : res.Body with
    | error err => rfl
    | ok bodyBytes =>
      by_cases hs : res.StatusCode = 200
      · simp only [hs, ne_eq, not_true_eq_false, if_false, zeroLinks]
        cases hu : (json.Unmarshal bodyBytes
          { BrowserURL := "", PollURL := "", VerificationCode := "" }).2 <;> rfl
      · simp [hs, fmt.Errorf]

/-- When the URL does not parse, `client.PostForm` returns the parse error and
nothing is handed to the client. -/
theorem PostForm_of_parse_error {σ : Type} (env : Env σ) (w : World σ)
    (authURL deviceName : String) (e : GoError)
    (hurl : neturl.Parse env (linksTarget authURL) = some e) :
    Client.PostForm env w (linksTarget authURL) (linksForm deviceName)
      = (.error e, w.next (.postForm (linksTarget authURL) (linksForm deviceName)) w.ext) := by
  unfold Client.PostForm
  simp only [hurl]

/-- When the URL parses, `client.PostForm` hands `linksRequest` to the client
and returns what the client returns. -/
theorem PostForm_of_parsed {σ : Type} (env : Env σ) (w : World σ)
    (authURL deviceName : String)
    (hurl : neturl.Parse env (linksTarget authURL) = none) :
    Client.PostForm env w (linksTarget authURL) (linksForm deviceName)
      = ((env.Do (linksRequest authURL deviceName) w.ext).1,
         (w.next (.postForm (linksTarget authURL) (linksForm deviceName)) w.ext).next
           (.request (linksRequest authURL deviceName))
           (env.Do (linksRequest authURL deviceName) w.ext).2) := by
  unfold Client.PostForm
  simp only [hurl]
  rfl

/-- When the URL does not parse, `getLinks` returns the parse error after the
call of `client.PostForm`, with no request made. -/
theorem getLinks_of_parse_error {σ : Type} (env : Env σ) (w : World σ)
    (authURL deviceName : String) (e : GoError)
    (hurl : neturl.Parse env (linksTarget authURL) = some e) :
    getLinks env w authURL deviceName
      = ((none, some e),
         w.next (.postForm (linksTarget authURL) (linksForm deviceName)) w.ext) := by
  rw [getLinks_eq, PostForm_of_parse_error env w authURL deviceName e hurl]

/-- When the client fails, `getLinks` returns its error after the one
request. -/
theorem getLinks_of_transport_error {σ : Type} (env : Env σ) (w : World σ)
    (authURL deviceName : String) (e : GoError) (ext1 : σ)
    (hurl : neturl.Parse env (linksTarget authURL) = none)
    (hpost : env.Do (linksRequest authURL deviceName) w.ext = (.error e, ext1)) :
    getLinks env w authURL deviceName
      = ((none, some e),
         (w.next (.postForm (linksTarget authURL) (linksForm deviceName)) w.ext).next
           (.request (linksRequest authURL deviceName)) ext1) := by
  rw [getLinks_eq, PostForm_of_parsed env w authURL deviceName hurl, hpost]

/-- When the client answers, `getLinks` closes the body and decides on the
body, the status code and the decoding, in that order. -/
theorem getLinks_of_response {σ : Type} (env : Env σ) (w : World σ)
    (authURL deviceName : String) (res : Response) (ext1 : σ)
    (hurl : neturl.Parse env (linksTarget authURL) = none)
    (hpost : env.Do (linksRequest authURL deviceName) w.ext = (.ok res, ext1)) :
    getLinks env w authURL deviceName
      = ((match res.Body with
          | .error err => (none, some err)
          | .ok bodyBytes =>
            if res.StatusCode ≠ 200 then
              (none, some (.errorString ("unexpected http status code: "
                ++ toString res.StatusCode ++ " " ++ bodyBytes)))
            else
              match (json.Unmarshal bodyBytes zeroLinks).2 with
              | some err => (none, some (.json err))
              | none => (some (json.Unmarshal bodyBytes zeroLinks).1, none)),
         (((w.next (.postForm (linksTarget authURL) (linksForm deviceName)) w.ext).next
           (.request (linksRequest authURL deviceName)) ext1).next .bodyClose ext1)) := by
  rw [getLinks_eq, PostForm_of_parsed env w authURL deviceName hurl, hpost]
  rfl

/-! ## The decoder -/

theorem Links.get_set (l : Links) (f g : Field) (s : String) :
    (l.set g s).get f = if f = g then s else l.get f := by
  cases f <;> cases g <;> simp [Links.set, Links.get]

theorem Links.ext_get (l l2 : Links) (h : ∀ f, l.get f = l2.get f) : l = l2 := by
  have h1 := h .BrowserURL
  have h2 := h .PollURL
  have h3 := h .VerificationCode
  cases l
  cases l2
  simp only [Links.get] at h1 h2 h3
  simp [h1, h2, h3]

/-- A member changes a field exactly when it supplies a string for it. -/
theorem decodeMember_get (st : Links × Option JsonError) (m : String × JSON) (f : Field) :
    (decodeMember st m).1.get f = (supplies f m).getD (st.1.get f) := by
  unfold decodeMember supplies
  cases hk : findField m.1 with
  | none => simp
  | some g =>
    by_cases hfg : g = f
    · subst hfg
      cases hv : m.2 <;> simp [Links.get_set]
    · have hgf : ¬ f = g := fun h => hfg h.symm
      cases hv : m.2 <;> simp [Links.get_set, hfg, hgf]

theorem getLast?_cons_getD {α : Type} (x : α) (xs : List α) (d : α) :
    ((x :: xs).getLast?).getD d = (xs.getLast?).getD x := by
  cases xs with
  | nil => simp
  | cons y ys =>
    rw [List.getLast?_cons_cons]
    cases h : (y :: ys).getLast? with
    | none => simp at h
    | some z => rfl

/-- After the members of an object, a field holds the last string supplied for
it, or what it held before. -/
theorem foldl_decodeMember_get (members : List (String × JSON)) (f : Field) :
    ∀ st : Links × Option JsonError,
      (members.foldl decodeMember st).1.get f
        = ((members.filterMap (supplies f)).getLast?).getD (st.1.get f) := by
  induction members with
  | nil => intro st; simp
  | cons m ms ih =>
    intro st
    rw [List.foldl_cons, ih, decodeMember_get]
    cases hs : supplies f m with
    | none => simp [List.filterMap_cons, hs]
    | some s => simp [List.filterMap_cons, hs, getLast?_cons_getD]

/-- No error is saved when every member that addresses a field is a string. -/
theorem foldl_decodeMember_noError (members : List (String × JSON)) :
    ∀ st : Links × Option JsonError, st.2 = none →
      (∀ m ∈ members, ∀ f, findField m.1 = some f → ∃ s, m.2 = .string s) →
      (members.foldl decodeMember st).2 = none := by
  induction members with
  | nil => intro st h _; simpa using h
  | cons m ms ih =>
    intro st h hall
    rw [List.foldl_cons]
    apply ih
    · unfold decodeMember
      cases hk : findField m.1 with
      | none => simpa using h
      | some g =>
        obtain ⟨s, hs⟩ := hall m (List.mem_cons_self _ _) g hk
        simp [hs, h]
    · intro m2 hm2
      exact hall m2 (List.mem_cons_of_mem _ hm2)

/-- The strings supplied for a field are the string values of the members
that address it. -/
theorem filterMap_supplies (members : List (String × JSON)) (f : Field) :
    members.filterMap (supplies f)
      = (members.filter (fun m => findField m.1 = some f)).filterMap
          (fun m => match m.2 with
            | .string s => some s
            | _ => none) := by
  induction members with
  | nil => simp
  | cons m ms ih =>
    by_cases hk : findField m.1 = some f
    · simp only [List.filterMap_cons, List.filter_cons, hk, decide_True, if_true, ih, supplies]
    · simp only [List.filterMap_cons, List.filter_cons, hk, decide_False, if_false, ih, supplies]
      simp

/-- A successful decoding leaves in each field what the document supplies. -/
theorem Unmarshal_fields (body : String) (links : Links)
    (h : json.Unmarshal body zeroLinks = (links, none)) :
    ∃ j, parseJSON body = .ok j ∧ ∀ f, links.get f = j.supplied f := by
  unfold json.Unmarshal at h
  cases hp : parseJSON body with
  | error e => simp [hp] at h
  | ok j =>
    refine ⟨j, rfl, ?_⟩
    simp only [hp] at h
    intro f
    cases j with
    | object members =>
      simp only [decodeLinks] at h
      have hg := foldl_decodeMember_get members f (zeroLinks, none)
      rw [h] at hg
      rw [hg]
      cases f <;> rfl
    | null =>
      simp only [decodeLinks, Prod.mk.injEq, and_true] at h
      subst h
      cases f <;> rfl
    | bool b => simp [decodeLinks] at h
    | number n => simp [decodeLinks] at h
    | string n => simp [decodeLinks] at h
    | array n => simp [decodeLinks] at h

/-- Decoding an object runs `decodeMember` over its members. -/
theorem Unmarshal_object (body : String) (members : List (String × JSON))
    (hjson : parseJSON body = .ok (.object members)) :
    json.Unmarshal body zeroLinks = members.foldl decodeMember (zeroLinks, none) := by
  simp [json.Unmarshal, hjson, decodeLinks]

/-! ## The scanner on quoted strings -/

/-- Unquoting an escaped quote. -/
theorem unquoteAux_quote (rest : List Char) :
    unquoteAux none ('\\' :: '"' :: rest) = (unquoteAux none rest).map ('"' :: ·) := by
  rw [unquoteAux.eq_def]
  simp [flushSurrogate]

/-- Unquoting an escaped backslash. -/
theorem unquoteAux_backslash (rest : List Char) :
    unquoteAux none ('\\' :: '\\' :: rest) = (unquoteAux none rest).map ('\\' :: ·) := by
  rw [unquoteAux.eq_def]
  simp [flushSurrogate]

/-- Unquoting a control character written as `\u00XX`. -/
theorem unquoteAux_control (n : Nat) (h : n < 32) (rest : List Char) :
    unquoteAux none ('\\' :: 'u' :: '0' :: '0' :: hexDigit (n / 16) :: hexDigit (n % 16) :: rest)
      = (unquoteAux none rest).map (Char.ofNat n :: ·) := by
  interval_cases n <;> rfl

/-- Unquoting a character that needs no escape. -/
theorem unquoteAux_plain (c : Char) (rest : List Char) (h1 : c ≠ '\\') (h2 : c ≠ '"')
    (h3 : ¬ c.toNat < 0x20) :
    unquoteAux none (c :: rest) = (unquoteAux none rest).map (c :: ·) := by
  rw [unquoteAux.eq_def]
  simp [h1, h2, h3, flushSurrogate]

/-- Unquoting the escaped text of a string gives the string back. -/
theorem unquoteAux_escapeAll (x : List Char) : unquoteAux none (escapeAll x) = some x := by
  induction x with
  | nil => rfl
  | cons c cs ih =>
    unfold escapeAll escapeJSON
    by_cases h2 : c = '"'
    · subst h2
      simp only [if_true, List.cons_append, List.nil_append]
      rw [unquoteAux_quote, ih]
      rfl
    · by_cases h1 : c = '\\'
      · subst h1
        simp only [h2, if_false, if_true, List.cons_append, List.nil_append]
        rw [unquoteAux_backslash, ih]
        rfl
      · by_cases h3 : c.toNat < 0x20
        · simp only [h2, h1, h3, if_false, if_true, List.cons_append, List.nil_append]
          rw [unquoteAux_control c.toNat h3, ih, Char.ofNat_toNat]
          rfl
        · simp only [h2, h1, h3, if_false, List.cons_append, List.nil_append]
          rw [unquoteAux_plain c _ h1 h2 h3, ih]
          rfl

/-- The scanner inside a string literal, on a character that needs no escape. -/
theorem run_plain (c : Char) (buf : List Char) (stack : List Frame) (result : Option JSON)
    (rest : List Char) (h1 : c ≠ '\\') (h2 : c ≠ '"') (h3 : ¬ c.toNat < 0x20) :
    Scanner.run ⟨.inString, buf, stack, result⟩ (c :: rest)
      = Scanner.run ⟨.inString, c :: buf, stack, result⟩ rest := by
  simp [Scanner.run, Scanner.step, h1, h2, h3]

/-- The scanner inside a string literal, on an escaped quote. -/
theorem run_quote (buf : List Char) (stack : List Frame) (result : Option JSON)
    (rest : List Char) :
    Scanner.run ⟨.inString, buf, stack, result⟩ ('\\' :: '"' :: rest)
      = Scanner.run ⟨.inString, '"' :: '\\' :: buf, stack, result⟩ rest := by
  simp [Scanner.run, Scanner.step]

/-- The scanner inside a string literal, on an escaped backslash. -/
theorem run_backslash (buf : List Char) (stack : List Frame) (result : Option JSON)
    (rest : List Char) :
    Scanner.run ⟨.inString, buf, stack, result⟩ ('\\' :: '\\' :: rest)
      = Scanner.run ⟨.inString, '\\' :: '\\' :: buf, stack, result⟩ rest := by
  simp [Scanner.run, Scanner.step]

/-- The scanner inside a string literal, on a control character written as
`\u00XX`. -/
theorem run_control (n : Nat) (h : n < 32) (buf : List Char) (stack : List Frame)
    (result : Option JSON) (rest : List Char) :
    Scanner.run ⟨.inString, buf, stack, result⟩
        ('\\' :: 'u' :: '0' :: '0' :: hexDigit (n / 16) :: hexDigit (n % 16) :: rest)
      = Scanner.run ⟨.inString,
          hexDigit (n % 16) :: hexDigit (n / 16) :: '0' :: '0' :: 'u' :: '\\' :: buf,
          stack, result⟩ rest := by
  interval_cases n <;> rfl

/-- The scanner inside a string literal reads the escaped text of any string
and keeps it as the token. -/
theorem run_escapeAll (x : List Char) (stack : List Frame) (result : Option JSON)
    (rest : List Char) :
    ∀ buf, Scanner.run ⟨.inString, buf, stack, result⟩ (escapeAll x ++ rest)
      = Scanner.run ⟨.inString, (escapeAll x).reverse ++ buf, stack, result⟩ rest := by
  induction x with
  | nil => intro buf; rfl
  | cons c cs ih =>
    intro buf
    unfold escapeAll escapeJSON
    by_cases h2 : c = '"'
    · subst h2
      simp only [if_true, List.cons_append, List.nil_append, List.append_assoc]
      rw [run_quote, ih]
      simp
    · by_cases h1 : c = '\\'
      · subst h1
        simp only [h2, if_false, if_true, List.cons_append, List.nil_append, List.append_assoc]
        rw [run_backslash, ih]
        simp
      · by_cases h3 : c.toNat < 0x20
        · simp only [h2, h1, h3, if_false, if_true, List.cons_append, List.nil_append,
            List.append_assoc]
          rw [run_control c.toNat h3, ih]
          simp
        · simp only [h2, h1, h3, if_false, List.cons_append, List.nil_append,
            List.append_assoc]
          rw [run_plain c _ _ _ _ h1 h2 h3, ih]
          simp

/-- Closing a string value whose text is an escaped `x`. -/
theorem run_close_value (x : List Char) (done : List (String × JSON)) (k : String)
    (rest : List Char) :
    Scanner.run ⟨.inString, (escapeAll x).reverse ++ [], [.obj done (some k)], none⟩
        ('"' :: rest)
      = Scanner.run ⟨.endValue, [], [.obj ((k, .string (String.mk x)) :: done) none], none⟩
          rest := by
  simp [Scanner.run, Scanner.step, Scanner.endString, unquote, unquoteAux_escapeAll,
    Scanner.emit]

/-- For all strings `b`, `p`, `v` the text `linksObjectText b p v` parses to the
object with the three string members. -/
theorem parseJSON_linksObjectText (b p v : String) :
    parseJSON (linksObjectText b p v)
      = .ok (.object [("browser_url", .string b), ("poll_url", .string p),
          ("verification_code", .string v)]) := by
  have e1 : ∀ X, Scanner.run Scanner.init ("\x7b\"browser_url\":\"".data ++ X)
      = Scanner.run ⟨.inString, [], [.obj [] (some "browser_url")], none⟩ X := fun X => rfl
  have e2 : ∀ X done, Scanner.run ⟨.endValue, [], [.obj done none], none⟩
        (",\"poll_url\":\"".data ++ X)
      = Scanner.run ⟨.inString, [], [.obj done (some "poll_url")], none⟩ X :=
    fun X done => rfl
  have e3 : ∀ X done, Scanner.run ⟨.endValue, [], [.obj done none], none⟩
        (",\"verification_code\":\"".data ++ X)
      = Scanner.run ⟨.inString, [], [.obj done (some "verification_code")], none⟩ X :=
    fun X done => rfl
  have q2 : ∀ X : List Char, "\",\"poll_url\":\"".data ++ X
      = '"' :: (",\"poll_url\":\"".data ++ X) := fun X => rfl
  have q3 : ∀ X : List Char, "\",\"verification_code\":\"".data ++ X
      = '"' :: (",\"verification_code\":\"".data ++ X) := fun X => rfl
  unfold parseJSON linksObjectText
  simp only []
  rw [e1, run_escapeAll, q2, run_close_value, e2, run_escapeAll, q3, run_close_value, e3,
    run_escapeAll, run_close_value]
  rfl
/-- An object in which each field is addressed by exactly one member, a
string, decodes to those three strings without error. -/
theorem Unmarshal_unique_members (body : String) (members : List (String × JSON))
    (kb kp kv b p v : String)
    (hjson : parseJSON body = .ok (.object members))
    (hb : members.filter (fun m => findField m.1 = some .BrowserURL) = [(kb, .string b)])
    (hp : members.filter (fun m => findField m.1 = some .PollURL) = [(kp, .string p)])
    (hv : members.filter (fun m => findField m.1 = some .VerificationCode)
      = [(kv, .string v)]) :
    json.Unmarshal body zeroLinks
      = ({ BrowserURL := b, PollURL := p, VerificationCode := v }, none) := by
  have herr : (members.foldl decodeMember (zeroLinks, none)).2 = none := by
    apply foldl_decodeMember_noError _ _ rfl
    intro m hm f hf
    have hmem : m ∈ members.filter (fun m => findField m.1 = some f) := by
      simp [List.mem_filter, hm, hf]
    cases f with
    | BrowserURL =>
      rw [hb] at hmem
      exact ⟨b, by simp at hmem; simp [hmem]⟩
    | PollURL =>
      rw [hp] at hmem
      exact ⟨p, by simp at hmem; simp [hmem]⟩
    | VerificationCode =>
      rw [hv] at hmem
      exact ⟨v, by simp at hmem; simp [hmem]⟩
  have hval : (members.foldl decodeMember (zeroLinks, none)).1
      = { BrowserURL := b, PollURL := p, VerificationCode := v } := by
    apply Links.ext_get
    intro f
    rw [foldl_decodeMember_get, filterMap_supplies]
    cases f with
    | BrowserURL => rw [hb]; simp [Links.get]
    | PollURL => rw [hp]; simp [Links.get]
    | VerificationCode => rw [hv]; simp [Links.get]
  rw [Unmarshal_object body members hjson]
  exact Prod.ext hval herr

/-! ## The nesting limit -/

/-- Opening one more array inside `maxNestingDepth` open containers is a
syntax error. -/
theorem run_open_array_at_limit (buf : List Char) (stack : List Frame) (result : Option JSON)
    (rest : List Char) (h : maxNestingDepth ≤ stack.length) :
    Scanner.run ⟨.beginValueOrEmpty, buf, stack, result⟩ ('[' :: rest) = none := by
  have h2 : ¬ (stack.length + 1 ≤ maxNestingDepth) := by omega
  simp [Scanner.run, Scanner.step, Scanner.stepBeginValue, Scanner.pushParseState, isSpace, h2]

/-- Below the limit, opening arrays puts them on the stack. -/
theorem run_open_arrays (n : Nat) (buf : List Char) (result : Option JSON) (rest : List Char) :
    ∀ stack : List Frame, stack.length + n ≤ maxNestingDepth →
      Scanner.run ⟨.beginValueOrEmpty, buf, stack, result⟩ (List.replicate n '[' ++ rest)
        = Scanner.run ⟨.beginValueOrEmpty, buf, List.replicate n (.arr []) ++ stack, result⟩
            rest := by
  induction n with
  | zero => intro stack _; rfl
  | succ k ih =>
    intro stack h
    have h2 : stack.length + 1 ≤ maxNestingDepth := by omega
    have hstep : Scanner.run ⟨.beginValueOrEmpty, buf, stack, result⟩
        (List.replicate (k + 1) '[' ++ rest)
        = Scanner.run ⟨.beginValueOrEmpty, buf, .arr [] :: stack, result⟩
            (List.replicate k '[' ++ rest) := by
      simp [List.replicate_succ, Scanner.run, Scanner.step, Scanner.stepBeginValue,
        Scanner.pushParseState, isSpace, h2]
    rw [hstep, ih (.arr [] :: stack) (by simp only [List.length_cons]; omega)]
    congr 2
    rw [List.replicate_succ']
    simp

/-- A text that opens `maxNestingDepth + 1` arrays (`m + 2` with
`m + 1 = maxNestingDepth`) is a syntax error, whatever follows. -/
theorem parseJSON_too_deep (m : Nat) (hm : m + 1 = maxNestingDepth) (rest : List Char) :
    parseJSON (String.mk (List.replicate (m + 2) '[' ++ rest)) = .error .syntaxError := by
  have hfirst : ∀ X, Scanner.run Scanner.init ('[' :: X)
      = Scanner.run ⟨.beginValueOrEmpty, [], [.arr []], none⟩ X := fun X => rfl
  have hr : List.replicate (m + 2) '[' ++ rest
      = '[' :: (List.replicate m '[' ++ ('[' :: rest)) := by
    rw [List.replicate_succ, List.replicate_succ']
    simp
  unfold parseJSON
  simp only []
  rw [hr, hfirst, run_open_arrays m [] none ('[' :: rest) [.arr []]
      (by simp only [List.length_cons, List.length_nil]; omega),
    run_open_array_at_limit _ _ _ _ (by simp; omega)]

/-! ## Claims about `getLinks` -/

/-- C1, refuted as stated: a body that is a JSON object with the string fields
`browser_url`, `poll_url` and `verification_code` and a further member
`BROWSER_URL` makes the code return the further member's string, and with a
further member `Poll_URL` that is a number the code returns an error. -/
theorem getLinks_further_member :
    (getLinks (fixedServer "linux" 200 overridingBody "") freshWorld "" "test").1
      = (some { BrowserURL := "evil", PollURL := "P", VerificationCode := "C" }, none)
    ∧ (getLinks (fixedServer "linux" 200 mistypedBody "") freshWorld "" "test").1
      = (none, some (.json (.unmarshalTypeError "number" "string" "Links" "poll_url"))) := by
  decide

/-- C1, amended: when the target URL parses and the client answers with status
200, then (1) for every body that is a JSON object in which each of the three
fields is addressed by exactly one member (names are matched ignoring case)
and that member is a string, `getLinks` returns no error and the `Links` with
exactly those three strings; (2) in particular for all strings `b`, `p`, `v`
the body `linksObjectText b p v`, the object of the three members with the
strings JSON-quoted, gives exactly `b`, `p` and `v`. -/
theorem getLinks_decodes_links {σ : Type} (env : Env σ) (w : World σ)
    (authURL deviceName : String) (res : Response) (ext1 : σ)
    (hurl : neturl.Parse env (linksTarget authURL) = none)
    (hpost : env.Do (linksRequest authURL deviceName) w.ext = (.ok res, ext1))
    (hstatus : res.StatusCode = 200) :
    (∀ (body : String) (members : List (String × JSON)) (kb kp kv b p v : String),
      res.Body = .ok body →
      parseJSON body = .ok (.object members) →
      members.filter (fun m => findField m.1 = some .BrowserURL) = [(kb, .string b)] →
      members.filter (fun m => findField m.1 = some .PollURL) = [(kp, .string p)] →
      members.filter (fun m => findField m.1 = some .VerificationCode) = [(kv, .string v)] →
      (getLinks env w authURL deviceName).1
        = (some { BrowserURL := b, PollURL := p, VerificationCode := v }, none))
    ∧ (∀ b p v : String, res.Body = .ok (linksObjectText b p v) →
      (getLinks env w authURL deviceName).1
        = (some { BrowserURL := b, PollURL := p, VerificationCode := v }, none)) := by
  have key : ∀ (body : String) (members : List (String × JSON)) (kb kp kv b p v : String),
      res.Body = .ok body →
      parseJSON body = .ok (.object members) →
      members.filter (fun m => findField m.1 = some .BrowserURL) = [(kb, .string b)] →
      members.filter (fun m => findField m.1 = some .PollURL) = [(kp, .string p)] →
      members.filter (fun m => findField m.1 = some .VerificationCode) = [(kv, .string v)] →
      (getLinks env w authURL deviceName).1
        = (some { BrowserURL := b, PollURL := p, VerificationCode := v }, none) := by
    intro body members kb kp kv b p v hbody hjson hb hp hv
    rw [getLinks_of_response env w authURL deviceName res ext1 hurl hpost]
    simp only [hbody, hstatus, ne_eq, not_true_eq_false, if_false,
      Unmarshal_unique_members body members kb kp kv b p v hjson hb hp hv]
  refine ⟨key, ?_⟩
  intro b p v hbody
  exact key (linksObjectText b p v)
    [("browser_url", .string b), ("poll_url", .string p), ("verification_code", .string v)]
    "browser_url" "poll_url" "verification_code" b p v hbody
    (parseJSON_linksObjectText b p v) rfl rfl rfl

/-- C1 amended, (1) at a body with other member order, white space and JSON
escapes, and (2) at strings with a quote, a backslash and a newline. -/
theorem getLinks_decodes_links_witness :
    (getLinks (fixedServer "linux" 200 escapedLinksBody "") freshWorld "http://127.0.0.1:8080"
        "test").1
      = (some { BrowserURL := "https://stripe.com/browser?a=1&b=2"
                PollURL := "https://stripe.com/poll"
                VerificationCode := "a\nb😀" }, none)
    ∧ (getLinks (fixedServer "linux" 200 (linksObjectText "say \"hi\"" "C:\\poll" "x\ny") "")
        freshWorld "" "test").1
      = (some { BrowserURL := "say \"hi\"", PollURL := "C:\\poll", VerificationCode := "x\ny" },
          none) :=
  ⟨(getLinks_decodes_links (fixedServer "linux" 200 escapedLinksBody "") freshWorld
      "http://127.0.0.1:8080" "test" { StatusCode := 200, Body := .ok escapedLinksBody } ()
      rfl rfl rfl).1 escapedLinksBody
      [("poll_url", .string "https://stripe.com/poll"),
       ("verification_code", .string "a\nb😀"),
       ("browser_url", .string "https://stripe.com/browser?a=1&b=2")]
      "browser_url" "poll_url" "verification_code"
      "https://stripe.com/browser?a=1&b=2" "https://stripe.com/poll" "a\nb😀"
      rfl rfl rfl rfl rfl,
   (getLinks_decodes_links
      (fixedServer "linux" 200 (linksObjectText "say \"hi\"" "C:\\poll" "x\ny") "") freshWorld
      "" "test"
      { StatusCode := 200, Body := .ok (linksObjectText "say \"hi\"" "C:\\poll" "x\ny") } ()
      rfl rfl rfl).2 "say \"hi\"" "C:\\poll" "x\ny" rfl⟩

/-- C2: when the target URL parsed, the body was read and the status code is
not 200, `getLinks`
returns no links and the error whose message is "unexpected http status code: ",
the decimal status code, a space and the body; when the status code is 200 the
error it returns, if any, is never such a formatted error. -/
theorem getLinks_status_error {σ : Type} (env : Env σ) (w : World σ)
    (authURL deviceName : String) (res : Response) (ext1 : σ) (body : String)
    (hurl : neturl.Parse env (linksTarget authURL) = none)
    (hpost : env.Do (linksRequest authURL deviceName) w.ext = (.ok res, ext1))
    (hbody : res.Body = .ok body) :
    (res.StatusCode ≠ 200 →
      (getLinks env w authURL deviceName).1
        = (none, some (.errorString ("unexpected http status code: "
            ++ toString res.StatusCode ++ " " ++ body))))
    ∧ (res.StatusCode = 200 →
      ∀ msg, (getLinks env w authURL deviceName).1.2 ≠ some (.errorString msg)) := by
  rw [getLinks_of_response env w authURL deviceName res ext1 hurl hpost]
  constructor
  · intro hs
    simp [hbody, hs]
  · intro hs msg
    simp only [hbody, hs, ne_eq, not_true_eq_false, if_false]
    cases hu : (json.Unmarshal body zeroLinks).2 <;> simp

/-- C2 at the input of `TestGetLinksHTTPStatusError` (status 500, empty body)
and at status 201 with a body that would decode as links. -/
theorem getLinks_status_error_witness :
    (getLinks (fixedServer "linux" 500 "" "") freshWorld "http://127.0.0.1:8080" "test").1
      = (none, some (.errorString "unexpected http status code: 500 "))
    ∧ (getLinks (fixedServer "linux" 201 "\x7b\"browser_url\":\"B\"\x7d" "") freshWorld "" "test").1
      = (none, some (.errorString
          "unexpected http status code: 201 \x7b\"browser_url\":\"B\"\x7d")) :=
  ⟨(getLinks_status_error (fixedServer "linux" 500 "" "") freshWorld "http://127.0.0.1:8080"
      "test" { StatusCode := 500, Body := .ok "" } () "" rfl rfl rfl).1 (by decide),
   (getLinks_status_error (fixedServer "linux" 201 "\x7b\"browser_url\":\"B\"\x7d" "") freshWorld
      "" "test" { StatusCode := 201, Body := .ok "\x7b\"browser_url\":\"B\"\x7d" } ()
      "\x7b\"browser_url\":\"B\"\x7d" rfl rfl rfl).1 (by decide)⟩

/-- C3: when the target URL parsed, the status code is 200 and decoding the body fails with an error,
`getLinks` returns that error and no links, whatever the decoder had already
stored in the struct. -/
theorem getLinks_decode_error {σ : Type} (env : Env σ) (w : World σ)
    (authURL deviceName : String) (res : Response) (ext1 : σ) (body : String)
    (partialLinks : Links) (e : JsonError)
    (hurl : neturl.Parse env (linksTarget authURL) = none)
    (hpost : env.Do (linksRequest authURL deviceName) w.ext = (.ok res, ext1))
    (hstatus : res.StatusCode = 200)
    (hbody : res.Body = .ok body)
    (hdecode : json.Unmarshal body zeroLinks = (partialLinks, some e)) :
    (getLinks env w authURL deviceName).1 = (none, some (.json e)) := by
  rw [getLinks_of_response env w authURL deviceName res ext1 hurl hpost]
  simp [hbody, hstatus, hdecode]

/-- C3 at a body like that of `TestGetLinksParseError`, with a good `poll_url`
before the number: the decoder stores the poll URL, `getLinks` returns nil and
the type error of the test; and at a body that is not JSON. -/
theorem getLinks_decode_error_witness :
    (getLinks (fixedServer "linux" 200 "\x7b\"poll_url\":\"P\",\"browser_url\":10\x7d\n" "")
        freshWorld "" "test").1
      = (none, some (.json (.unmarshalTypeError "number" "string" "Links" "browser_url")))
    ∧ unmarshalTypeErrorMessage "number" "string" "Links" "browser_url"
      = "json: cannot unmarshal number into Go struct field Links.browser_url of type string"
    ∧ (getLinks (fixedServer "linux" 200 "<HTML></HTML>" "") freshWorld "" "test").1
      = (none, some (.json .syntaxError)) :=
  ⟨getLinks_decode_error (fixedServer "linux" 200 "\x7b\"poll_url\":\"P\",\"browser_url\":10\x7d\n" "")
    freshWorld "" "test"
    { StatusCode := 200, Body := .ok "\x7b\"poll_url\":\"P\",\"browser_url\":10\x7d\n" } ()
    "\x7b\"poll_url\":\"P\",\"browser_url\":10\x7d\n"
    { BrowserURL := "", PollURL := "P", VerificationCode := "" }
    (.unmarshalTypeError "number" "string" "Links" "browser_url") rfl rfl rfl rfl rfl, by decide,
   getLinks_decode_error (fixedServer "linux" 200 "<HTML></HTML>" "") freshWorld "" "test"
    { StatusCode := 200, Body := .ok "<HTML></HTML>" } () "<HTML></HTML>" zeroLinks .syntaxError
    rfl rfl rfl rfl rfl⟩

/-- C4: when the target URL parsed and the client's call fails with error `e`,
`getLinks` returns no links and exactly `e`, and the call of
`client.PostForm` with its one request is all it did. -/
theorem getLinks_transport_error {σ : Type} (env : Env σ) (w : World σ)
    (authURL deviceName : String) (e : GoError) (ext1 : σ)
    (hurl : neturl.Parse env (linksTarget authURL) = none)
    (hpost : env.Do (linksRequest authURL deviceName) w.ext = (.error e, ext1)) :
    (getLinks env w authURL deviceName).1 = (none, some e)
    ∧ (getLinks env w authURL deviceName).2.ext = ext1
    ∧ (getLinks env w authURL deviceName).2.log
      = w.log ++ [.postForm (linksTarget authURL) (linksForm deviceName),
          .request (linksRequest authURL deviceName)] := by
  rw [getLinks_of_transport_error env w authURL deviceName e ext1 hurl hpost]
  simp [World.next]

/-- C4 at a refused connection, as in `TestGetLinksRequestError`. -/
theorem getLinks_transport_error_witness :
    (getLinks (deadServer (.foreign "*url.Error" "connect: connection refused")) freshWorld
        "http://127.0.0.1:8080" "test").1
      = (none, some (.foreign "*url.Error" "connect: connection refused")) :=
  (getLinks_transport_error (deadServer (.foreign "*url.Error" "connect: connection refused"))
    freshWorld "http://127.0.0.1:8080" "test"
    (.foreign "*url.Error" "connect: connection refused") () rfl rfl).1

/-- C8, refuted as stated: to status 200 with the body `{}` the code returns
no error and a `Links` whose three fields are all empty. -/
theorem getLinks_empty_fields :
    (getLinks (fixedServer "linux" 200 "\x7b\x7d" "") freshWorld "" "test").1
      = (some { BrowserURL := "", PollURL := "", VerificationCode := "" }, none) := by
  decide

/-- C8, amended: whenever `getLinks` returns links and no error, the transport
answered with status 200 and a body that is valid JSON, and each field of the
result is exactly the string that body supplies for it (the last string
member addressing the field, the empty string when there is none); so the
three fields are all non-empty exactly when the body supplies a non-empty
string for each. -/
theorem getLinks_fields_supplied {σ : Type} (env : Env σ) (w : World σ)
    (authURL deviceName : String) (links : Links)
    (h : (getLinks env w authURL deviceName).1 = (some links, none)) :
    ∃ res ext1 body j,
      env.Do (linksRequest authURL deviceName) w.ext = (.ok res, ext1)
      ∧ res.StatusCode = 200
      ∧ res.Body = .ok body
      ∧ parseJSON body = .ok j
      ∧ (∀ f, links.get f = j.supplied f)
      ∧ ((links.BrowserURL ≠ "" ∧ links.PollURL ≠ "" ∧ links.VerificationCode ≠ "")
          ↔ ∀ f, j.supplied f ≠ "") := by
  cases hurl : neturl.Parse env (linksTarget authURL) with
  | some e =>
    rw [getLinks_of_parse_error env w authURL deviceName e hurl] at h
    simp at h
  | none =>
  cases hd : env.Do (linksRequest authURL deviceName) w.ext with
  | mk r ext1 =>
    cases r with
    | error e =>
      rw [getLinks_of_transport_error env w authURL deviceName e ext1 hurl hd] at h
      simp at h
    | ok res =>
      rw [getLinks_of_response env w authURL deviceName res ext1 hurl hd] at h
      cases hb : res.Body with
      | error e => simp [hb] at h
      | ok body =>
        simp only [hb] at h
        by_cases hs : res.StatusCode = 200
        · simp only [hs, ne_eq, not_true_eq_false, if_false] at h
          cases hu : (json.Unmarshal body zeroLinks).2 with
          | some e => simp [hu] at h
          | none =>
            simp only [hu, Prod.mk.injEq, Option.some.injEq, and_true] at h
            have hun : json.Unmarshal body zeroLinks = (links, none) := by
              rw [← h, ← hu]
            obtain ⟨j, hj, hget⟩ := Unmarshal_fields body links hun
            refine ⟨res, ext1, body, j, rfl, hs, hb, hj, hget, ?_⟩
            constructor
            · rintro ⟨h1, h2, h3⟩ f
              rw [← hget f]
              cases f <;> simpa [Links.get]
            · intro hall
              have h1 := hall .BrowserURL
              have h2 := hall .PollURL
              have h3 := hall .VerificationCode
              rw [← hget] at h1 h2 h3
              exact ⟨h1, h2, h3⟩
        · simp [hs] at h

/-- C8 amended, at the body of `TestGetLinks`: the links returned are those the
body supplies. -/
theorem getLinks_fields_supplied_witness :
    ∃ res ext1 body j,
      (fixedServer "linux" 200 testLinksBody "").Do (linksRequest "" "test") freshWorld.ext
        = (.ok res, ext1)
      ∧ res.StatusCode = 200
      ∧ res.Body = .ok body
      ∧ parseJSON body = .ok j
      ∧ (∀ f, ({ BrowserURL := "https://stripe.com/browser"
                 PollURL := "https://stripe.com/poll"
                 VerificationCode := "dinosaur-pineapple-polkadot" } : Links).get f
            = j.supplied f)
      ∧ ((("https://stripe.com/browser" : String) ≠ "" ∧ ("https://stripe.com/poll" : String) ≠ ""
            ∧ ("dinosaur-pineapple-polkadot" : String) ≠ "")
          ↔ ∀ f, j.supplied f ≠ "") :=
  getLinks_fields_supplied (fixedServer "linux" 200 testLinksBody "") freshWorld "" "test"
    { BrowserURL := "https://stripe.com/browser"
      PollURL := "https://stripe.com/poll"
      VerificationCode := "dinosaur-pineapple-polkadot" } (by decide)

/-- C9, refuted as stated: for the authorization URL `://bad`, which does not
parse as a URL, the code calls `client.PostForm`, gets the parse error and
hands no request to the client. -/
theorem getLinks_unparsable_url :
    getLinks (fixedServer "linux" 200 testLinksBody "") freshWorld "://bad" "test"
      = ((none, some (.urlError "parse" "://bad" "missing protocol scheme")),
         { ext := (), log := [.postForm "://bad" [("device_name", ["test"])]] }) := by
  rfl

/-- C9, amended: `getLinks` calls `client.PostForm` once, on `authURL`, or on
`https://dashboard.stripe.com/stripecli/auth` when `authURL` is empty, with the
form of the one field `device_name` and the one value `deviceName`. When that
URL does not parse, the parse error is returned and no request is made. When
it parses, exactly one request is handed to the client: a POST with content
type `application/x-www-form-urlencoded` to that URL with that form; besides
it `getLinks` only closes the response body. Requests the client makes itself
when it follows a redirect are the client's. -/
theorem getLinks_single_request {σ : Type} (env : Env σ) (w : World σ)
    (authURL deviceName : String) :
    (∀ e, neturl.Parse env
        (if authURL = "" then "https://dashboard.stripe.com/stripecli/auth" else authURL)
        = some e →
      getLinks env w authURL deviceName
        = ((none, some e),
           { ext := w.ext,
             log := w.log ++ [.postForm
               (if authURL = "" then "https://dashboard.stripe.com/stripecli/auth" else authURL)
               [("device_name", [deviceName])]] }))
    ∧ (neturl.Parse env
        (if authURL = "" then "https://dashboard.stripe.com/stripecli/auth" else authURL)
        = none →
      (getLinks env w authURL deviceName).2.log
          = w.log ++ [.postForm
              (if authURL = "" then "https://dashboard.stripe.com/stripecli/auth" else authURL)
              [("device_name", [deviceName])],
            .request
              { Method := "POST"
                URL := if authURL = "" then "https://dashboard.stripe.com/stripecli/auth"
                  else authURL
                ContentType := "application/x-www-form-urlencoded"
                Form := [("device_name", [deviceName])] }]
      ∨ (getLinks env w authURL deviceName).2.log
          = w.log ++ [.postForm
              (if authURL = "" then "https://dashboard.stripe.com/stripecli/auth" else authURL)
              [("device_name", [deviceName])],
            .request
              { Method := "POST"
                URL := if authURL = "" then "https://dashboard.stripe.com/stripecli/auth"
                  else authURL
                ContentType := "application/x-www-form-urlencoded"
                Form := [("device_name", [deviceName])] },
            .bodyClose]) := by
  constructor
  · intro e hurl
    rw [getLinks_of_parse_error env w authURL deviceName e hurl]
    rfl
  · intro hurl
    cases hd : env.Do (linksRequest authURL deviceName) w.ext with
    | mk r ext1 =>
      cases r with
      | error e =>
        left
        rw [getLinks_of_transport_error env w authURL deviceName e ext1 hurl hd]
        simp [World.next, linksRequest, linksTarget, linksForm]
      | ok res =>
        right
        rw [getLinks_of_response env w authURL deviceName res ext1 hurl hd]
        simp [World.next, linksRequest, linksTarget, linksForm]

/-- C9 amended, at the empty authorization URL: the one request goes to the
default URL. -/
theorem getLinks_single_request_witness :
    (getLinks (fixedServer "linux" 200 testLinksBody "") freshWorld "" "test").2.log
        = freshWorld.log ++ [.postForm "https://dashboard.stripe.com/stripecli/auth"
              [("device_name", ["test"])],
            .request
              { Method := "POST"
                URL := "https://dashboard.stripe.com/stripecli/auth"
                ContentType := "application/x-www-form-urlencoded"
                Form := [("device_name", ["test"])] }]
    ∨ (getLinks (fixedServer "linux" 200 testLinksBody "") freshWorld "" "test").2.log
        = freshWorld.log ++ [.postForm "https://dashboard.stripe.com/stripecli/auth"
              [("device_name", ["test"])],
            .request
              { Method := "POST"
                URL := "https://dashboard.stripe.com/stripecli/auth"
                ContentType := "application/x-www-form-urlencoded"
                Form := [("device_name", ["test"])] },
            .bodyClose] :=
  (getLinks_single_request (fixedServer "linux" 200 testLinksBody "") freshWorld "" "test").2
    rfl

/-! ## `openBrowser` -/

/-- On each of the three platforms `openBrowser` is the start of one command. -/
theorem openBrowser_start {σ : Type} (env : Env σ) (w : World σ) (url name : String)
    (args : List String)
    (h : (env.GOOS = "linux" ∧ name = "xdg-open" ∧ args = [url])
      ∨ (env.GOOS = "windows" ∧ name = "rundll32" ∧ args = ["url.dll,FileProtocolHandler", url])
      ∨ (env.GOOS = "darwin" ∧ name = "open" ∧ args = [url])) :
    openBrowser env w url
      = ((env.execCommandStart name args w.ext).1,
         w.next (.start name args) (env.execCommandStart name args w.ext).2) := by
  unfold openBrowser
  rcases h with ⟨hg, hn, ha⟩ | ⟨hg, hn, ha⟩ | ⟨hg, hn, ha⟩ <;> subst hn <;> subst ha
  · simp only [hg, if_true]
    cases env.execCommandStart "xdg-open" [url] w.ext with
    | mk r x => cases r <;> rfl
  · simp only [hg, if_true, show ¬ ("windows" = "linux") by decide, if_false]
    cases env.execCommandStart "rundll32" ["url.dll,FileProtocolHandler", url] w.ext with
    | mk r x => cases r <;> rfl
  · simp only [hg, if_true, show ¬ ("darwin" = "linux") by decide,
      show ¬ ("darwin" = "windows") by decide, if_false]
    cases env.execCommandStart "open" [url] w.ext with
    | mk r x => cases r <;> rfl

/-- On any other platform `openBrowser` fails and leaves the world alone. -/
theorem openBrowser_unsupported {σ : Type} (env : Env σ) (w : World σ) (url : String)
    (h1 : env.GOOS ≠ "linux") (h2 : env.GOOS ≠ "windows") (h3 : env.GOOS ≠ "darwin") :
    openBrowser env w url = (some (.errorString "unsupported platform"), w) := by
  unfold openBrowser
  simp [h1, h2, h3, fmt.Errorf]

/-- Either `openBrowser` did nothing and failed, or it started one command
whose last argument is the URL. -/
theorem openBrowser_log {σ : Type} (env : Env σ) (w : World σ) (url : String) :
    (openBrowser env w url = (some (.errorString "unsupported platform"), w))
    ∨ ∃ name args, (openBrowser env w url).2.log = w.log ++ [.start name (args ++ [url])] := by
  by_cases h1 : env.GOOS = "linux"
  · right
    refine ⟨"xdg-open", [], ?_⟩
    rw [openBrowser_start env w url "xdg-open" [url] (Or.inl ⟨h1, rfl, rfl⟩)]
    simp [World.next]
  · by_cases h2 : env.GOOS = "windows"
    · right
      refine ⟨"rundll32", ["url.dll,FileProtocolHandler"], ?_⟩
      rw [openBrowser_start env w url "rundll32" ["url.dll,FileProtocolHandler", url]
        (Or.inr (Or.inl ⟨h2, rfl, rfl⟩))]
      simp [World.next]
    · by_cases h3 : env.GOOS = "darwin"
      · right
        refine ⟨"open", [], ?_⟩
        rw [openBrowser_start env w url "open" [url] (Or.inr (Or.inr ⟨h3, rfl, rfl⟩))]
        simp [World.next]
      · left
        exact openBrowser_unsupported env w url h1 h2 h3

/-- C10: on "linux" `openBrowser` starts `xdg-open` with the URL, on "windows"
`rundll32` with `url.dll,FileProtocolHandler` and the URL, on "darwin" `open`
with the URL, and returns what the start returned; on any other platform it
returns the error "unsupported platform" and does nothing. It fails with
nothing started exactly when the platform is none of the three. -/
theorem openBrowser_dispatch {σ : Type} (env : Env σ) (w : World σ) (url : String) :
    (env.GOOS = "linux" →
      openBrowser env w url
        = ((env.execCommandStart "xdg-open" [url] w.ext).1,
           { ext := (env.execCommandStart "xdg-open" [url] w.ext).2,
             log := w.log ++ [.start "xdg-open" [url]] }))
    ∧ (env.GOOS = "windows" →
      openBrowser env w url
        = ((env.execCommandStart "rundll32" ["url.dll,FileProtocolHandler", url] w.ext).1,
           { ext := (env.execCommandStart "rundll32" ["url.dll,FileProtocolHandler", url] w.ext).2,
             log := w.log ++ [.start "rundll32" ["url.dll,FileProtocolHandler", url]] }))
    ∧ (env.GOOS = "darwin" →
      openBrowser env w url
        = ((env.execCommandStart "open" [url] w.ext).1,
           { ext := (env.execCommandStart "open" [url] w.ext).2,
             log := w.log ++ [.start "open" [url]] }))
    ∧ (env.GOOS ≠ "linux" → env.GOOS ≠ "windows" → env.GOOS ≠ "darwin" →
      openBrowser env w url = (some (.errorString "unsupported platform"), w))
    ∧ (((openBrowser env w url).1 ≠ none ∧ (openBrowser env w url).2.log = w.log)
        ↔ (env.GOOS ≠ "linux" ∧ env.GOOS ≠ "windows" ∧ env.GOOS ≠ "darwin")) := by
  refine ⟨fun h => ?_, fun h => ?_, fun h => ?_, fun h1 h2 h3 => ?_, ?_⟩
  · rw [openBrowser_start env w url "xdg-open" [url] (Or.inl ⟨h, rfl, rfl⟩)]
    rfl
  · rw [openBrowser_start env w url "rundll32" ["url.dll,FileProtocolHandler", url]
      (Or.inr (Or.inl ⟨h, rfl, rfl⟩))]
    rfl
  · rw [openBrowser_start env w url "open" [url] (Or.inr (Or.inr ⟨h, rfl, rfl⟩))]
    rfl
  · exact openBrowser_unsupported env w url h1 h2 h3
  · constructor
    · rintro ⟨_, hlog⟩
      rcases openBrowser_log env w url with h | ⟨name, args, h⟩
      · by_contra hne
        have hsup : env.GOOS = "linux" ∨ env.GOOS = "windows" ∨ env.GOOS = "darwin" := by
          by_contra hno
          apply hne
          refine ⟨fun h1 => hno (Or.inl h1), fun h2 => hno (Or.inr (Or.inl h2)),
            fun h3 => hno (Or.inr (Or.inr h3))⟩
        have hlen : (openBrowser env w url).2.log.length = w.log.length + 1 := by
          rcases hsup with h1 | h2 | h3
          · rw [openBrowser_start env w url "xdg-open" [url] (Or.inl ⟨h1, rfl, rfl⟩)]
            simp [World.next]
          · rw [openBrowser_start env w url "rundll32" ["url.dll,FileProtocolHandler", url]
              (Or.inr (Or.inl ⟨h2, rfl, rfl⟩))]
            simp [World.next]
          · rw [openBrowser_start env w url "open" [url] (Or.inr (Or.inr ⟨h3, rfl, rfl⟩))]
            simp [World.next]
        rw [hlog] at hlen
        omega
      · rw [hlog] at h
        have hlen := congrArg List.length h
        simp at hlen
    · rintro ⟨h1, h2, h3⟩
      rw [openBrowser_unsupported env w url h1 h2 h3]
      simp

/-- C10 on a platform outside the three: the error, and nothing started. -/
theorem openBrowser_dispatch_witness :
    openBrowser (fixedServer "freebsd" 200 "" "") freshWorld "https://stripe.com/browser"
      = (some (.errorString "unsupported platform"), freshWorld) :=
  (openBrowser_dispatch (fixedServer "freebsd" 200 "" "") freshWorld
    "https://stripe.com/browser").2.2.2.1 (by decide) (by decide) (by decide)

/-! ## `Login` -/

/-- What `getLinks` adds to the log: the call of `client.PostForm`, the request
when the URL parsed, and the closing of the body when the client answered. -/
theorem getLinks_log {σ : Type} (env : Env σ) (w : World σ) (authURL deviceName : String) :
    (getLinks env w authURL deviceName).2.log
        = w.log ++ [.postForm (linksTarget authURL) (linksForm deviceName)]
    ∨ (getLinks env w authURL deviceName).2.log
        = w.log ++ [.postForm (linksTarget authURL) (linksForm deviceName),
            .request (linksRequest authURL deviceName)]
    ∨ (getLinks env w authURL deviceName).2.log
        = w.log ++ [.postForm (linksTarget authURL) (linksForm deviceName),
            .request (linksRequest authURL deviceName), .bodyClose] := by
  cases hurl : neturl.Parse env (linksTarget authURL) with
  | some e =>
    left
    rw [getLinks_of_parse_error env w authURL deviceName e hurl]
    simp [World.next]
  | none =>
    cases hd : env.Do (linksRequest authURL deviceName) w.ext with
    | mk r ext1 =>
      cases r with
      | error e =>
        right
        left
        rw [getLinks_of_transport_error env w authURL deviceName e ext1 hurl hd]
        simp [World.next]
      | ok res =>
        right
        right
        rw [getLinks_of_response env w authURL deviceName res ext1 hurl hd]
        simp [World.next]

/-- A successful `getLinks` has called `client.PostForm`, sent the request and
closed the body. -/
theorem getLinks_log_of_links {σ : Type} (env : Env σ) (w w1 : World σ)
    (authURL deviceName : String) (links : Links)
    (h : getLinks env w authURL deviceName = ((some links, none), w1)) :
    w1.log = w.log ++ [.postForm (linksTarget authURL) (linksForm deviceName),
      .request (linksRequest authURL deviceName), .bodyClose] := by
  cases hurl : neturl.Parse env (linksTarget authURL) with
  | some e =>
    rw [getLinks_of_parse_error env w authURL deviceName e hurl] at h
    simp at h
  | none =>
    cases hd : env.Do (linksRequest authURL deviceName) w.ext with
    | mk r ext1 =>
      cases r with
      | error e =>
        rw [getLinks_of_transport_error env w authURL deviceName e ext1 hurl hd] at h
        simp at h
      | ok res =>
        rw [getLinks_of_response env w authURL deviceName res ext1 hurl hd] at h
        have h2 := congrArg (fun x => x.2.log) h
        simp only [World.next] at h2
        rw [← h2]
        simp

/-- Function `getLinks` never returns nil links together with a nil error. -/
theorem getLinks_not_nil_nil {σ : Type} (env : Env σ) (w : World σ)
    (authURL deviceName : String) :
    (getLinks env w authURL deviceName).1 ≠ (none, none) := by
  cases hurl : neturl.Parse env (linksTarget authURL) with
  | some e =>
    rw [getLinks_of_parse_error env w authURL deviceName e hurl]
    simp
  | none =>
    cases hd : env.Do (linksRequest authURL deviceName) w.ext with
    | mk r ext1 =>
      cases r with
      | error e =>
        rw [getLinks_of_transport_error env w authURL deviceName e ext1 hurl hd]
        simp
      | ok res =>
        rw [getLinks_of_response env w authURL deviceName res ext1 hurl hd]
        cases hb : res.Body with
        | error e => simp
        | ok body =>
          by_cases hs : res.StatusCode = 200
          · simp only [hs, ne_eq, not_true_eq_false, if_false]
            cases hu : (json.Unmarshal body zeroLinks).2 <;> simp
          · simp [hs]

/-- Step 1 failed: `Login` returns the error of `getLinks` and stops. -/
theorem Login_of_getLinks_error {σ : Type} (env : Env σ) (w : World σ) (url : String)
    (profile : Profile) (e : GoError)
    (h : (getLinks env w url profile.DeviceName).1.2 = some e) :
    Login env w url profile
      = (.returned (some e), (getLinks env w url profile.DeviceName).2) := by
  unfold Login
  cases hr : (getLinks env w url profile.DeviceName).1 with
  | mk l err =>
    rw [hr] at h
    simp only at h
    subst h
    simp only [hr]

/-- Step 2 failed: `Login` returns the error of `openBrowser` and stops. -/
theorem Login_of_openBrowser_error {σ : Type} (env : Env σ) (w w1 w2 : World σ) (url : String)
    (profile : Profile) (links : Links) (e : GoError)
    (hlinks : getLinks env w url profile.DeviceName = ((some links, none), w1))
    (hopen : openBrowser env (w1.next (.printf (loginPrompt links)) w1.ext) links.BrowserURL
      = (some e, w2)) :
    Login env w url profile = (.returned (some e), w2) := by
  unfold Login
  simp only [hlinks, hopen]

/-- Step 3 failed: `Login` returns the error of `PollForKey` and stops. -/
theorem Login_of_poll_error {σ : Type} (env : Env σ) (w w1 w2 : World σ) (url : String)
    (profile : Profile) (links : Links) (e : GoError) (x3 : σ)
    (hlinks : getLinks env w url profile.DeviceName = ((some links, none), w1))
    (hopen : openBrowser env (w1.next (.printf (loginPrompt links)) w1.ext) links.BrowserURL
      = (none, w2))
    (hpoll : env.PollForKey links.PollURL 0 0 w2.ext = (.error e, x3)) :
    Login env w url profile
      = (.returned (some e), w2.next (.pollForKey links.PollURL 0 0) x3) := by
  unfold Login
  simp only [hlinks, hopen, hpoll]

/-- Step 4 failed: `Login` returns the error of the validator and stops. -/
theorem Login_of_validate_error {σ : Type} (env : Env σ) (w w1 w2 : World σ) (url : String)
    (profile : Profile) (links : Links) (k : String) (e : GoError) (x3 x4 : σ)
    (hlinks : getLinks env w url profile.DeviceName = ((some links, none), w1))
    (hopen : openBrowser env (w1.next (.printf (loginPrompt links)) w1.ext) links.BrowserURL
      = (none, w2))
    (hpoll : env.PollForKey links.PollURL 0 0 w2.ext = (.ok k, x3))
    (hvalid : env.APIKey k x3 = (some e, x4)) :
    Login env w url profile
      = (.returned (some e), (w2.next (.pollForKey links.PollURL 0 0) x3).next (.apiKey k) x4) := by
  unfold Login
  simp only [hlinks, hopen, hpoll, World.next_ext, hvalid]

/-- Steps 1 to 4 succeeded: `Login` returns what `ConfigureProfile` returns. -/
theorem Login_of_configure {σ : Type} (env : Env σ) (w w1 w2 : World σ) (url : String)
    (profile : Profile) (links : Links) (k : String) (c : Option GoError) (x3 x4 x5 : σ)
    (hlinks : getLinks env w url profile.DeviceName = ((some links, none), w1))
    (hopen : openBrowser env (w1.next (.printf (loginPrompt links)) w1.ext) links.BrowserURL
      = (none, w2))
    (hpoll : env.PollForKey links.PollURL 0 0 w2.ext = (.ok k, x3))
    (hvalid : env.APIKey k x3 = (none, x4))
    (hconf : env.ConfigureProfile profile k x4 = (c, x5)) :
    Login env w url profile
      = (.returned c,
         ((w2.next (.pollForKey links.PollURL 0 0) x3).next (.apiKey k) x4).next
           (.configureProfile profile k) x5) := by
  unfold Login
  simp only [hlinks, hopen, hpoll, World.next_ext, hvalid, hconf]
  cases c <;> rfl

/-- The steps between two worlds whose logs differ by `evs`. -/
theorem stepsSince_of_log {σ : Type} (w w2 : World σ) (evs : List Event)
    (h : w2.log = w.log ++ evs) : stepsSince w w2 = evs.filterMap Event.step := by
  unfold stepsSince
  rw [h, List.drop_left]

/-- The log after `getLinks` succeeded and `openBrowser` ran: the call of
`client.PostForm`, the request, the closing of the body and the printed prompt, then at most one started command,
and exactly one when `openBrowser` succeeded. -/
theorem log_after_openBrowser {σ : Type} (env : Env σ) (w w1 w2 : World σ) (url : String)
    (profile : Profile) (links : Links) (r : Option GoError)
    (hlinks : getLinks env w url profile.DeviceName = ((some links, none), w1))
    (hopen : openBrowser env (w1.next (.printf (loginPrompt links)) w1.ext) links.BrowserURL
      = (r, w2)) :
    (r ≠ none ∧ w2.log = w.log ++ [.postForm (linksTarget url) (linksForm profile.DeviceName),
        .request (linksRequest url profile.DeviceName), .bodyClose,
        .printf (loginPrompt links)])
    ∨ ∃ name args, w2.log = w.log ++ [.postForm (linksTarget url) (linksForm profile.DeviceName),
        .request (linksRequest url profile.DeviceName), .bodyClose,
        .printf (loginPrompt links), .start name (args ++ [links.BrowserURL])] := by
  have h1 := getLinks_log_of_links env w w1 url profile.DeviceName links hlinks
  rcases openBrowser_log env (w1.next (.printf (loginPrompt links)) w1.ext) links.BrowserURL
    with h | ⟨name, args, h⟩
  · left
    rw [h] at hopen
    simp only [Prod.mk.injEq] at hopen
    obtain ⟨hr, hw⟩ := hopen
    subst hr
    subst hw
    simp [World.next_log, h1]
  · right
    refine ⟨name, args, ?_⟩
    rw [hopen] at h
    simp only at h
    rw [h, World.next_log, h1]
    simp

/-- Every call of `Login` ends at one of its five steps. -/
theorem Login_cases {σ : Type} (env : Env σ) (w : World σ) (url : String) (profile : Profile) :
    (∃ e, (getLinks env w url profile.DeviceName).1.2 = some e)
    ∨ ∃ links w1, getLinks env w url profile.DeviceName = ((some links, none), w1)
      ∧ ((∃ e w2, openBrowser env (w1.next (.printf (loginPrompt links)) w1.ext)
            links.BrowserURL = (some e, w2))
        ∨ ∃ w2, openBrowser env (w1.next (.printf (loginPrompt links)) w1.ext)
            links.BrowserURL = (none, w2)
          ∧ ((∃ e x3, env.PollForKey links.PollURL 0 0 w2.ext = (.error e, x3))
            ∨ ∃ k x3, env.PollForKey links.PollURL 0 0 w2.ext = (.ok k, x3)
              ∧ ((∃ e x4, env.APIKey k x3 = (some e, x4))
                ∨ ∃ x4, env.APIKey k x3 = (none, x4)
                  ∧ ∃ c x5, env.ConfigureProfile profile k x4 = (c, x5)))) := by
  cases hg : getLinks env w url profile.DeviceName with
  | mk r w1 =>
    cases r with
    | mk l err =>
      cases err with
      | some e => exact Or.inl ⟨e, rfl⟩
      | none =>
        cases l with
        | none =>
          exact absurd (by rw [hg]) (getLinks_not_nil_nil env w url profile.DeviceName)
        | some links =>
          refine Or.inr ⟨links, w1, rfl, ?_⟩
          cases ho : openBrowser env (w1.next (.printf (loginPrompt links)) w1.ext)
            links.BrowserURL with
          | mk oe w2 =>
            cases oe with
            | some e => exact Or.inl ⟨e, w2, rfl⟩
            | none =>
              refine Or.inr ⟨w2, rfl, ?_⟩
              cases hp : env.PollForKey links.PollURL 0 0 w2.ext with
              | mk pr x3 =>
                cases pr with
                | error e => exact Or.inl ⟨e, x3, rfl⟩
                | ok k =>
                  refine Or.inr ⟨k, x3, rfl, ?_⟩
                  cases hv : env.APIKey k x3 with
                  | mk ve x4 =>
                    cases ve with
                    | some e => exact Or.inl ⟨e, x4, rfl⟩
                    | none =>
                      refine Or.inr ⟨x4, rfl, ?_⟩
                      exact ⟨(env.ConfigureProfile profile k x4).1,
                        (env.ConfigureProfile profile k x4).2, rfl⟩

/-- Step 1 failed: only the call for links was made. -/
theorem steps_of_getLinks_error {σ : Type} (env : Env σ) (w : World σ) (url : String)
    (profile : Profile) (e : GoError)
    (h : (getLinks env w url profile.DeviceName).1.2 = some e) :
    (Login env w url profile).1 = .returned (some e)
    ∧ stepsSince w (Login env w url profile).2 = [.links] := by
  rw [Login_of_getLinks_error env w url profile e h]
  refine ⟨rfl, ?_⟩
  rcases getLinks_log env w url profile.DeviceName with hl | hl | hl
  · rw [stepsSince_of_log w _ _ hl]
    rfl
  · rw [stepsSince_of_log w _ _ hl]
    rfl
  · rw [stepsSince_of_log w _ _ hl]
    rfl

/-- Step 2 failed: nothing came after the browser launch. -/
theorem steps_of_openBrowser_error {σ : Type} (env : Env σ) (w w1 w2 : World σ) (url : String)
    (profile : Profile) (links : Links) (e : GoError)
    (hlinks : getLinks env w url profile.DeviceName = ((some links, none), w1))
    (hopen : openBrowser env (w1.next (.printf (loginPrompt links)) w1.ext) links.BrowserURL
      = (some e, w2)) :
    (Login env w url profile).1 = .returned (some e)
    ∧ (stepsSince w (Login env w url profile).2 = [.links]
      ∨ stepsSince w (Login env w url profile).2 = [.links, .browser]) := by
  rw [Login_of_openBrowser_error env w w1 w2 url profile links e hlinks hopen]
  refine ⟨rfl, ?_⟩
  rcases log_after_openBrowser env w w1 w2 url profile links _ hlinks hopen
    with ⟨_, hl⟩ | ⟨name, args, hl⟩
  · left
    rw [stepsSince_of_log w _ _ hl]
    rfl
  · right
    rw [stepsSince_of_log w _ _ hl]
    rfl

/-- Step 3 failed: the key was neither validated nor stored. -/
theorem steps_of_poll_error {σ : Type} (env : Env σ) (w w1 w2 : World σ) (url : String)
    (profile : Profile) (links : Links) (e : GoError) (x3 : σ)
    (hlinks : getLinks env w url profile.DeviceName = ((some links, none), w1))
    (hopen : openBrowser env (w1.next (.printf (loginPrompt links)) w1.ext) links.BrowserURL
      = (none, w2))
    (hpoll : env.PollForKey links.PollURL 0 0 w2.ext = (.error e, x3)) :
    (Login env w url profile).1 = .returned (some e)
    ∧ stepsSince w (Login env w url profile).2 = [.links, .browser, .poll] := by
  rw [Login_of_poll_error env w w1 w2 url profile links e x3 hlinks hopen hpoll]
  refine ⟨rfl, ?_⟩
  rcases log_after_openBrowser env w w1 w2 url profile links _ hlinks hopen
    with ⟨hne, _⟩ | ⟨name, args, hl⟩
  · exact absurd rfl hne
  · have hl2 : (w2.next (.pollForKey links.PollURL 0 0) x3).log
        = w.log ++ [.postForm (linksTarget url) (linksForm profile.DeviceName),
        .request (linksRequest url profile.DeviceName), .bodyClose,
            .printf (loginPrompt links), .start name (args ++ [links.BrowserURL]),
            .pollForKey links.PollURL 0 0] := by
      rw [World.next_log, hl]
      simp
    rw [stepsSince_of_log w _ _ hl2]
    rfl

/-- Step 4 failed: the key was not stored. -/
theorem steps_of_validate_error {σ : Type} (env : Env σ) (w w1 w2 : World σ) (url : String)
    (profile : Profile) (links : Links) (k : String) (e : GoError) (x3 x4 : σ)
    (hlinks : getLinks env w url profile.DeviceName = ((some links, none), w1))
    (hopen : openBrowser env (w1.next (.printf (loginPrompt links)) w1.ext) links.BrowserURL
      = (none, w2))
    (hpoll : env.PollForKey links.PollURL 0 0 w2.ext = (.ok k, x3))
    (hvalid : env.APIKey k x3 = (some e, x4)) :
    (Login env w url profile).1 = .returned (some e)
    ∧ stepsSince w (Login env w url profile).2 = [.links, .browser, .poll, .validate] := by
  rw [Login_of_validate_error env w w1 w2 url profile links k e x3 x4 hlinks hopen hpoll hvalid]
  refine ⟨rfl, ?_⟩
  rcases log_after_openBrowser env w w1 w2 url profile links _ hlinks hopen
    with ⟨hne, _⟩ | ⟨name, args, hl⟩
  · exact absurd rfl hne
  · have hl2 : ((w2.next (.pollForKey links.PollURL 0 0) x3).next (.apiKey k) x4).log
        = w.log ++ [.postForm (linksTarget url) (linksForm profile.DeviceName),
        .request (linksRequest url profile.DeviceName), .bodyClose,
            .printf (loginPrompt links), .start name (args ++ [links.BrowserURL]),
            .pollForKey links.PollURL 0 0, .apiKey k] := by
      rw [World.next_log, World.next_log, hl]
      simp
    rw [stepsSince_of_log w _ _ hl2]
    rfl

/-- Steps 1 to 4 succeeded: `Login` returns what `ConfigureProfile` returned,
and the log is the seven events of a full run. -/
theorem log_of_configure {σ : Type} (env : Env σ) (w w1 w2 : World σ) (url : String)
    (profile : Profile) (links : Links) (k : String) (c : Option GoError) (x3 x4 x5 : σ)
    (hlinks : getLinks env w url profile.DeviceName = ((some links, none), w1))
    (hopen : openBrowser env (w1.next (.printf (loginPrompt links)) w1.ext) links.BrowserURL
      = (none, w2))
    (hpoll : env.PollForKey links.PollURL 0 0 w2.ext = (.ok k, x3))
    (hvalid : env.APIKey k x3 = (none, x4))
    (hconf : env.ConfigureProfile profile k x4 = (c, x5)) :
    (Login env w url profile).1 = .returned c
    ∧ (Login env w url profile).2.ext = x5
    ∧ ∃ name args, (Login env w url profile).2.log
        = w.log ++ [.postForm (linksTarget url) (linksForm profile.DeviceName),
        .request (linksRequest url profile.DeviceName), .bodyClose,
            .printf (loginPrompt links), .start name (args ++ [links.BrowserURL]),
            .pollForKey links.PollURL 0 0, .apiKey k, .configureProfile profile k] := by
  rw [Login_of_configure env w w1 w2 url profile links k c x3 x4 x5 hlinks hopen hpoll hvalid
    hconf]
  refine ⟨rfl, rfl, ?_⟩
  rcases log_after_openBrowser env w w1 w2 url profile links _ hlinks hopen
    with ⟨hne, _⟩ | ⟨name, args, hl⟩
  · exact absurd rfl hne
  · refine ⟨name, args, ?_⟩
    simp only [World.next_log, hl]
    simp

/-- Steps 1 to 4 succeeded: all five steps were taken, once each. -/
theorem steps_of_configure {σ : Type} (env : Env σ) (w w1 w2 : World σ) (url : String)
    (profile : Profile) (links : Links) (k : String) (c : Option GoError) (x3 x4 x5 : σ)
    (hlinks : getLinks env w url profile.DeviceName = ((some links, none), w1))
    (hopen : openBrowser env (w1.next (.printf (loginPrompt links)) w1.ext) links.BrowserURL
      = (none, w2))
    (hpoll : env.PollForKey links.PollURL 0 0 w2.ext = (.ok k, x3))
    (hvalid : env.APIKey k x3 = (none, x4))
    (hconf : env.ConfigureProfile profile k x4 = (c, x5)) :
    (Login env w url profile).1 = .returned c
    ∧ stepsSince w (Login env w url profile).2
      = [.links, .browser, .poll, .validate, .persist] := by
  obtain ⟨h1, _, name, args, hl⟩ :=
    log_of_configure env w w1 w2 url profile links k c x3 x4 x5 hlinks hopen hpoll hvalid hconf
  refine ⟨h1, ?_⟩
  rw [stepsSince_of_log w _ _ hl]
  rfl

/-! ## Claims about `Login` -/

/-- C5: if `getLinks` fails with error `e`, `Login` returns `e` and ends in the
world `getLinks` left: what was done is the call of `client.PostForm`, at most
followed by its request and the closing of its response body, so no command
was started and no key was polled for, validated or stored. -/
theorem Login_stops_when_getLinks_fails {σ : Type} (env : Env σ) (w : World σ) (url : String)
    (profile : Profile) (e : GoError)
    (h : (getLinks env w url profile.DeviceName).1.2 = some e) :
    Login env w url profile = (.returned (some e), (getLinks env w url profile.DeviceName).2)
    ∧ ((Login env w url profile).2.log
        = w.log ++ [.postForm (linksTarget url) (linksForm profile.DeviceName)]
      ∨ (Login env w url profile).2.log
        = w.log ++ [.postForm (linksTarget url) (linksForm profile.DeviceName),
            .request (linksRequest url profile.DeviceName)]
      ∨ (Login env w url profile).2.log
        = w.log ++ [.postForm (linksTarget url) (linksForm profile.DeviceName),
            .request (linksRequest url profile.DeviceName), .bodyClose]) := by
  rw [Login_of_getLinks_error env w url profile e h]
  exact ⟨rfl, getLinks_log env w url profile.DeviceName⟩

/-- C5 at a refused connection: `Login` returns the client's error and the
log holds the call with its one request. -/
theorem Login_stops_when_getLinks_fails_witness :
    Login (deadServer (.foreign "*url.Error" "connect: connection refused")) freshWorld
        "http://127.0.0.1:8080/auth" testProfile
      = (.returned (some (.foreign "*url.Error" "connect: connection refused")),
         { ext := (),
           log := [.postForm "http://127.0.0.1:8080/auth" (linksForm "st-testing"),
             .request (linksRequest "http://127.0.0.1:8080/auth" "st-testing")] }) :=
  (Login_stops_when_getLinks_fails
    (deadServer (.foreign "*url.Error" "connect: connection refused")) freshWorld
    "http://127.0.0.1:8080/auth" testProfile
    (.foreign "*url.Error" "connect: connection refused") rfl).1

/-- C6: when `getLinks` returns the links `(B, P, code)`, `openBrowser` on `B`
succeeds, `PollForKey` on `P` returns the key `k`, the validator accepts `k`
and `ConfigureProfile` succeeds, `Login` returns no error, and what it did is
exactly: the call of `client.PostForm` with its request for the links, closing
the body, printing the prompt,
starting one command whose last argument is `B`, polling `P`, validating `k`
and storing `k` in the profile. -/
theorem Login_end_to_end {σ : Type} (env : Env σ) (w w1 w2 : World σ) (url : String)
    (profile : Profile) (B P code k : String) (x3 x4 x5 : σ)
    (hlinks : getLinks env w url profile.DeviceName
      = ((some { BrowserURL := B, PollURL := P, VerificationCode := code }, none), w1))
    (hopen : openBrowser env
        (w1.next (.printf (loginPrompt { BrowserURL := B, PollURL := P, VerificationCode := code }))
          w1.ext) B
      = (none, w2))
    (hpoll : env.PollForKey P 0 0 w2.ext = (.ok k, x3))
    (hvalid : env.APIKey k x3 = (none, x4))
    (hconf : env.ConfigureProfile profile k x4 = (none, x5)) :
    (Login env w url profile).1 = .returned none
    ∧ (Login env w url profile).2.ext = x5
    ∧ ∃ name args, (Login env w url profile).2.log
        = w.log ++ [.postForm (linksTarget url) (linksForm profile.DeviceName),
            .request (linksRequest url profile.DeviceName), .bodyClose,
            .printf (loginPrompt { BrowserURL := B, PollURL := P, VerificationCode := code }),
            .start name (args ++ [B]), .pollForKey P 0 0, .apiKey k,
            .configureProfile profile k] :=
  log_of_configure env w w1 w2 url profile
    { BrowserURL := B, PollURL := P, VerificationCode := code } k none x3 x4 x5
    hlinks hopen hpoll hvalid hconf

/-- C6 at the scenario of `TestLogin`: the key `sk_test_1234` is stored. -/
theorem Login_end_to_end_witness :
    (Login (fixedServer "linux" 200 testLoginBody "sk_test_1234") freshWorld
        "http://127.0.0.1:8080/auth" testProfile).1 = .returned none
    ∧ (Login (fixedServer "linux" 200 testLoginBody "sk_test_1234") freshWorld
        "http://127.0.0.1:8080/auth" testProfile).2.ext = ()
    ∧ ∃ name args, (Login (fixedServer "linux" 200 testLoginBody "sk_test_1234") freshWorld
        "http://127.0.0.1:8080/auth" testProfile).2.log
        = freshWorld.log ++ [.postForm (linksTarget "http://127.0.0.1:8080/auth")
              (linksForm testProfile.DeviceName),
            .request (linksRequest "http://127.0.0.1:8080/auth" testProfile.DeviceName),
            .bodyClose,
            .printf (loginPrompt
              { BrowserURL := "http://127.0.0.1:8080/browser"
                PollURL := "http://127.0.0.1:8080/poll"
                VerificationCode := "dinosaur-pineapple-polkadot" }),
            .start name (args ++ ["http://127.0.0.1:8080/browser"]),
            .pollForKey "http://127.0.0.1:8080/poll" 0 0, .apiKey "sk_test_1234",
            .configureProfile testProfile "sk_test_1234"] :=
  Login_end_to_end (fixedServer "linux" 200 testLoginBody "sk_test_1234") freshWorld
    { ext := (),
      log := [.postForm "http://127.0.0.1:8080/auth" (linksForm "st-testing"),
        .request (linksRequest "http://127.0.0.1:8080/auth" "st-testing"), .bodyClose] }
    { ext := (),
      log := [.postForm "http://127.0.0.1:8080/auth" (linksForm "st-testing"),
        .request (linksRequest "http://127.0.0.1:8080/auth" "st-testing"), .bodyClose,
        .printf (loginPrompt testLoginLinks),
        .start "xdg-open" ["http://127.0.0.1:8080/browser"]] }
    "http://127.0.0.1:8080/auth" testProfile
    "http://127.0.0.1:8080/browser" "http://127.0.0.1:8080/poll" "dinosaur-pineapple-polkadot"
    "sk_test_1234" () () () rfl rfl rfl rfl rfl

/-- C7: `Login` never dereferences nil links, and the steps it takes are an
initial part of: links, browser, poll, validate, persist, each once. When all
steps before a step succeeded and that step fails with an error, `Login`
returns that error and took no later step (a failed browser launch ends after
the links or the launch, a failed validation before persisting). `Login`
returns no error only when all five steps succeeded. -/
theorem Login_steps_in_order {σ : Type} (env : Env σ) (w : World σ) (url : String)
    (profile : Profile) :
    (Login env w url profile).1 ≠ .nilDereference
    ∧ stepsSince w (Login env w url profile).2 <+: [.links, .browser, .poll, .validate, .persist]
    ∧ (∀ e, (getLinks env w url profile.DeviceName).1.2 = some e →
        (Login env w url profile).1 = .returned (some e)
        ∧ stepsSince w (Login env w url profile).2 = [.links])
    ∧ (∀ links w1, getLinks env w url profile.DeviceName = ((some links, none), w1) →
        (∀ e w2, openBrowser env (w1.next (.printf (loginPrompt links)) w1.ext)
            links.BrowserURL = (some e, w2) →
          (Login env w url profile).1 = .returned (some e)
          ∧ (stepsSince w (Login env w url profile).2 = [.links]
            ∨ stepsSince w (Login env w url profile).2 = [.links, .browser]))
        ∧ (∀ w2, openBrowser env (w1.next (.printf (loginPrompt links)) w1.ext)
            links.BrowserURL = (none, w2) →
          (∀ e x3, env.PollForKey links.PollURL 0 0 w2.ext = (.error e, x3) →
            (Login env w url profile).1 = .returned (some e)
            ∧ stepsSince w (Login env w url profile).2 = [.links, .browser, .poll])
          ∧ (∀ k x3, env.PollForKey links.PollURL 0 0 w2.ext = (.ok k, x3) →
            (∀ e x4, env.APIKey k x3 = (some e, x4) →
              (Login env w url profile).1 = .returned (some e)
              ∧ stepsSince w (Login env w url profile).2 = [.links, .browser, .poll, .validate])
            ∧ (∀ x4, env.APIKey k x3 = (none, x4) →
              ∀ c x5, env.ConfigureProfile profile k x4 = (c, x5) →
                (Login env w url profile).1 = .returned c
                ∧ stepsSince w (Login env w url profile).2
                  = [.links, .browser, .poll, .validate, .persist]))))
    ∧ ((Login env w url profile).1 = .returned none →
        ∃ links w1 w2 k x3 x4 x5,
          getLinks env w url profile.DeviceName = ((some links, none), w1)
          ∧ openBrowser env (w1.next (.printf (loginPrompt links)) w1.ext) links.BrowserURL
            = (none, w2)
          ∧ env.PollForKey links.PollURL 0 0 w2.ext = (.ok k, x3)
          ∧ env.APIKey k x3 = (none, x4)
          ∧ env.ConfigureProfile profile k x4 = (none, x5)) := by
  refine ⟨?_, ?_, ?_, ?_, ?_⟩
  · rcases Login_cases env w url profile with ⟨e, h⟩ | ⟨links, w1, hl, hrest⟩
    · rw [(steps_of_getLinks_error env w url profile e h).1]
      simp
    · rcases hrest with ⟨e, w2, ho⟩ | ⟨w2, ho, hrest⟩
      · rw [(steps_of_openBrowser_error env w w1 w2 url profile links e hl ho).1]
        simp
      · rcases hrest with ⟨e, x3, hp⟩ | ⟨k, x3, hp, hrest⟩
        · rw [(steps_of_poll_error env w w1 w2 url profile links e x3 hl ho hp).1]
          simp
        · rcases hrest with ⟨e, x4, hv⟩ | ⟨x4, hv, c, x5, hc⟩
          · rw [(steps_of_validate_error env w w1 w2 url profile links k e x3 x4 hl ho hp hv).1]
            simp
          · rw [(steps_of_configure env w w1 w2 url profile links k c x3 x4 x5 hl ho hp hv hc).1]
            simp
  · rcases Login_cases env w url profile with ⟨e, h⟩ | ⟨links, w1, hl, hrest⟩
    · rw [(steps_of_getLinks_error env w url profile e h).2]
      exact ⟨[.browser, .poll, .validate, .persist], rfl⟩
    · rcases hrest with ⟨e, w2, ho⟩ | ⟨w2, ho, hrest⟩
      · rcases (steps_of_openBrowser_error env w w1 w2 url profile links e hl ho).2 with h | h
        · rw [h]
          exact ⟨[.browser, .poll, .validate, .persist], rfl⟩
        · rw [h]
          exact ⟨[.poll, .validate, .persist], rfl⟩
      · rcases hrest with ⟨e, x3, hp⟩ | ⟨k, x3, hp, hrest⟩
        · rw [(steps_of_poll_error env w w1 w2 url profile links e x3 hl ho hp).2]
          exact ⟨[.validate, .persist], rfl⟩
        · rcases hrest with ⟨e, x4, hv⟩ | ⟨x4, hv, c, x5, hc⟩
          · rw [(steps_of_validate_error env w w1 w2 url profile links k e x3 x4 hl ho hp hv).2]
            exact ⟨[.persist], rfl⟩
          · rw [(steps_of_configure env w w1 w2 url profile links k c x3 x4 x5 hl ho hp hv hc).2]
  · intro e h
    exact steps_of_getLinks_error env w url profile e h
  · intro links w1 hl
    refine ⟨fun e w2 ho => steps_of_openBrowser_error env w w1 w2 url profile links e hl ho,
      fun w2 ho => ⟨fun e x3 hp => steps_of_poll_error env w w1 w2 url profile links e x3 hl ho hp,
        fun k x3 hp => ⟨fun e x4 hv =>
          steps_of_validate_error env w w1 w2 url profile links k e x3 x4 hl ho hp hv,
          fun x4 hv c x5 hc =>
            steps_of_configure env w w1 w2 url profile links k c x3 x4 x5 hl ho hp hv hc⟩⟩⟩
  · intro hnone
    rcases Login_cases env w url profile with ⟨e, h⟩ | ⟨links, w1, hl, hrest⟩
    · rw [(steps_of_getLinks_error env w url profile e h).1] at hnone
      simp at hnone
    · rcases hrest with ⟨e, w2, ho⟩ | ⟨w2, ho, hrest⟩
      · rw [(steps_of_openBrowser_error env w w1 w2 url profile links e hl ho).1] at hnone
        simp at hnone
      · rcases hrest with ⟨e, x3, hp⟩ | ⟨k, x3, hp, hrest⟩
        · rw [(steps_of_poll_error env w w1 w2 url profile links e x3 hl ho hp).1] at hnone
          simp at hnone
        · rcases hrest with ⟨e, x4, hv⟩ | ⟨x4, hv, c, x5, hc⟩
          · rw [(steps_of_validate_error env w w1 w2 url profile links k e x3 x4 hl ho hp hv).1]
              at hnone
            simp at hnone
          · rw [(steps_of_configure env w w1 w2 url profile links k c x3 x4 x5 hl ho hp hv hc).1]
              at hnone
            simp only [Outcome.returned.injEq] at hnone
            subst hnone
            exact ⟨links, w1, w2, k, x3, x4, x5, hl, ho, hp, hv, hc⟩

/-- C7 where the validator rejects the key: `Login` returns the validator's
error and the key is not stored. -/
theorem Login_steps_in_order_witness :
    (Login (rejectingValidator 200 testLoginBody "sk_test_1234" (.errorString "invalid key"))
        freshWorld "http://127.0.0.1:8080/auth" testProfile).1
      = .returned (some (.errorString "invalid key"))
    ∧ stepsSince freshWorld
        (Login (rejectingValidator 200 testLoginBody "sk_test_1234" (.errorString "invalid key"))
          freshWorld "http://127.0.0.1:8080/auth" testProfile).2
      = [.links, .browser, .poll, .validate] :=
  (((((Login_steps_in_order
    (rejectingValidator 200 testLoginBody "sk_test_1234" (.errorString "invalid key"))
    freshWorld "http://127.0.0.1:8080/auth" testProfile).2.2.2.1 testLoginLinks
      { ext := (),
        log := [.postForm "http://127.0.0.1:8080/auth" (linksForm "st-testing"),
          .request (linksRequest "http://127.0.0.1:8080/auth" "st-testing"), .bodyClose] }
      rfl).2
      { ext := (),
        log := [.postForm "http://127.0.0.1:8080/auth" (linksForm "st-testing"),
          .request (linksRequest "http://127.0.0.1:8080/auth" "st-testing"), .bodyClose,
          .printf (loginPrompt testLoginLinks),
          .start "xdg-open" ["http://127.0.0.1:8080/browser"]] }
      rfl).2 "sk_test_1234" () rfl).1 (.errorString "invalid key") () rfl)

end StripeCLI
